import Mathlib

/-!
Verification development for the obf-perf measurement-and-pipeline engine.

Shallow embedding of the Python sources:
  obf_perf/resource_monitor.py   (ResourceMonitor)
  obf_perf/metrics.py            (normalized_compression_distance)
  obf_perf/result_container.py   (Result, ResultContainer)
  obf_perf/obf_perf_core.py      (load_obfuscation_configs, perform_analysis)

External effects (spawned processes, the bz2 compressor, the filesystem,
environment variables) are modelled as explicit oracle parameters; Python
ints are Nat/Int, Python floats carrying exact arithmetic are Rat;
raised exceptions are Except errors.
-/

namespace ObfPerf

/-! ## Resource monitor (resource_monitor.py) -/

/-- The fields of a struct_rusage returned by os.wait4 that the monitor
reads: user/system CPU time, page faults, swaps, context switches. -/
structure Rusage where
  ru_utime : ℚ
  ru_stime : ℚ
  ru_minflt : Nat
  ru_majflt : Nat
  ru_nswap : Nat
  ru_nvcsw : Nat
  ru_nivcsw : Nat
deriving DecidableEq, Repr

/-- What the process spawn in ResourceMonitor.run observes of the wrapped
command: the wait4 exit status (raw 16-bit wait status; 0 means success),
the bytes captured from the wrapper's stdout and stderr pipes, the elapsed
monotonic wall clock, and the rusage struct from os.wait4. -/
structure RawObs where
  status : Nat
  stdoutData : String
  stderrData : String
  wallClock : ℚ
  rusage : Rusage
deriving DecidableEq, Repr

/-- Errors raised by resource_monitor.py:
ValueError (empty command validation), subprocess.CalledProcessError
(non-zero exit status with check=True, carrying status/stdout/stderr),
IndexError (stderr_lines[-1] on empty stderr), ValueError from int()
(unparsable memory line), and the RuntimeError from _ensure_run. -/
inductive MonitorError where
  | valueError (msg : String)
  | calledProcessError (status : Nat) (stdoutData stderrData : String)
  | indexError
  | intParseError
  | notYetRun
deriving DecidableEq, Repr

/-- The data stored on the instance by a completed run(): _wall_time,
_resource_usage, _stdout, _stderr (with the time(1) output stripped),
_max_memory. -/
structure RunData where
  wallTime : ℚ
  resourceUsage : Rusage
  stdoutStr : String
  stderrStr : String
  maxMemory : ℤ
deriving DecidableEq, Repr

/-- A ResourceMonitor instance: _args, _check, and _run/stored results
(none models _run = False; some d models _run = True with stored data). -/
structure ResourceMonitor where
  args : List String
  check : Bool
  completed : Option RunData
deriving DecidableEq, Repr

/-- ResourceMonitor.__init__: rejects an empty argument vector with
ValueError before anything is spawned; otherwise stores the args and
check flag, with _run = False. -/
def ResourceMonitor.init (args : List String) (check : Bool) :
    Except MonitorError ResourceMonitor :=
  if args.length = 0 then
    .error (.valueError "Error: cannot monitor an empty command")
  else
    .ok { args := args, check := check, completed := none }

/-- str.splitlines for strings whose only line separator is the newline
character (the only separator produced by the wrapper output the monitor
parses): a trailing newline does not produce a final empty line, and the
empty string has no lines. -/
def splitlinesNL (s : String) : List String :=
  if s = "" then []
  else if s.endsWith "\n" then (s.dropRight 1).splitOn "\n"
  else s.splitOn "\n"

/-- "\n".join(lines[:-1]) + "\n" from run(): the stderr of the target with
the final time(1) memory line removed. -/
def stderrWithoutTimeOutput (lines : List String) : String :=
  String.intercalate "\n" (lines.dropLast) ++ "\n"

/-- ResourceMonitor.run(), acting on the observation of the spawned
wrapper process. Mirrors the source order: the exit-status check (raising
CalledProcessError when check is set and the status is non-zero) happens
before the stderr memory-line parsing; on success the run data is stored,
_run is set and the status is returned. -/
def ResourceMonitor.runModel (m : ResourceMonitor) (obs : RawObs) :
    Except MonitorError (ResourceMonitor × Nat) :=
  if m.check ∧ obs.status ≠ 0 then
    .error (.calledProcessError obs.status obs.stdoutData obs.stderrData)
  else
    let stderrLines := splitlinesNL obs.stderrData
    match stderrLines.getLast? with
    | none => .error .indexError
    | some lastLine =>
      match lastLine.toInt? with
      | none => .error .intParseError
      | some mem =>
        let d : RunData :=
          { wallTime := obs.wallClock
            resourceUsage := obs.rusage
            stdoutStr := obs.stdoutData
            stderrStr := stderrWithoutTimeOutput stderrLines
            maxMemory := mem }
        .ok ({ m with completed := some d }, obs.status)

/-- _ensure_run followed by returning a stored field: every getter fails
with the NotYetRun RuntimeError while _run is False. -/
def ResourceMonitor.getField {α : Type} (m : ResourceMonitor)
    (f : RunData → α) : Except MonitorError α :=
  match m.completed with
  | none => .error .notYetRun
  | some d => .ok (f d)

def ResourceMonitor.stdoutG (m : ResourceMonitor) : Except MonitorError String :=
  m.getField (fun d => d.stdoutStr)

def ResourceMonitor.stderrG (m : ResourceMonitor) : Except MonitorError String :=
  m.getField (fun d => d.stderrStr)

def ResourceMonitor.wall_time (m : ResourceMonitor) : Except MonitorError ℚ :=
  m.getField (fun d => d.wallTime)

def ResourceMonitor.user_time (m : ResourceMonitor) : Except MonitorError ℚ :=
  m.getField (fun d => d.resourceUsage.ru_utime)

def ResourceMonitor.system_time (m : ResourceMonitor) : Except MonitorError ℚ :=
  m.getField (fun d => d.resourceUsage.ru_stime)

def ResourceMonitor.max_memory (m : ResourceMonitor) : Except MonitorError ℤ :=
  m.getField (fun d => d.maxMemory)

def ResourceMonitor.minor_page_faults (m : ResourceMonitor) :
    Except MonitorError Nat :=
  m.getField (fun d => d.resourceUsage.ru_minflt)

def ResourceMonitor.major_page_faults (m : ResourceMonitor) :
    Except MonitorError Nat :=
  m.getField (fun d => d.resourceUsage.ru_majflt)

def ResourceMonitor.page_faults (m : ResourceMonitor) :
    Except MonitorError Nat :=
  m.getField (fun d => d.resourceUsage.ru_minflt + d.resourceUsage.ru_majflt)

def ResourceMonitor.swaps (m : ResourceMonitor) : Except MonitorError Nat :=
  m.getField (fun d => d.resourceUsage.ru_nswap)

def ResourceMonitor.volountary_context_switches (m : ResourceMonitor) :
    Except MonitorError Nat :=
  m.getField (fun d => d.resourceUsage.ru_nvcsw)

def ResourceMonitor.involountary_context_switches (m : ResourceMonitor) :
    Except MonitorError Nat :=
  m.getField (fun d => d.resourceUsage.ru_nivcsw)

def ResourceMonitor.context_switches (m : ResourceMonitor) :
    Except MonitorError Nat :=
  m.getField (fun d => d.resourceUsage.ru_nvcsw + d.resourceUsage.ru_nivcsw)

/-! ### Spawn scenarios for the executable-not-found analysis (C5)

The monitor never observes the semantic reason for a wrapper exit status:
it only sees the RawObs triple. We name the two real-world scenarios and
the observation the OS and /usr/bin/time deliver for each: when the
wrapper cannot locate the target executable it exits with status 127,
which os.wait4 reports as the raw wait status 127 * 256 = 32512, and
its own diagnostic output appears on the captured stderr pipe. -/

inductive Spawn where
  /-- /usr/bin/time could not locate or execute the target executable:
  the wrapper exits 127 with its diagnostic on stderr. -/
  | execNotFound (wrapperStderr : String) (wallClock : ℚ) (ru : Rusage)
  /-- The target executable ran and exited with the given raw wait
  status, producing the captured stdout and stderr data. -/
  | ranAndExited (status : Nat) (stdoutData stderrData : String)
      (wallClock : ℚ) (ru : Rusage)
deriving DecidableEq, Repr

def Spawn.observe : Spawn → RawObs
  | .execNotFound werr wall ru =>
      { status := 32512, stdoutData := "", stderrData := werr,
        wallClock := wall, rusage := ru }
  | .ranAndExited st out err wall ru =>
      { status := st, stdoutData := out, stderrData := err,
        wallClock := wall, rusage := ru }

/-- Construct a monitor for the given command (check=True as in every
call site of the pipeline) and run it against a spawn scenario. -/
def monitoredRun (args : List String) (sc : Spawn) :
    Except MonitorError (ResourceMonitor × Nat) :=
  (ResourceMonitor.init args true).bind (fun m => m.runModel sc.observe)

/-! ## Static metrics (metrics.py) -/

/-- Byte strings read from files, as lists of byte values. -/
abbrev ByteStr := List Nat

/-- normalized_compression_distance, parametrised by the external world:
compress is the bz2.compress function and readF the filesystem content of
each (readable) path. Mirrors the source: compressed sizes of the
concatenation and of each file alone, the (C(a+b) - min) / max quotient
in exact arithmetic, then the two-sided clip to [0, 1]. -/
def normalized_compression_distance (compress : ByteStr → ByteStr)
    (readF : String → ByteStr) (orig_path obf_path : String) : ℚ :=
  let bytes_orig := readF orig_path
  let bytes_obf := readF obf_path
  let combined_compressed_size := (compress (List.append bytes_orig bytes_obf)).length
  let orig_compressed_size := (compress bytes_orig).length
  let obf_compressed_size := (compress bytes_obf).length
  let ncd : ℚ :=
    ((combined_compressed_size : ℚ)
      - min (orig_compressed_size : ℚ) (obf_compressed_size : ℚ))
    / max (orig_compressed_size : ℚ) (obf_compressed_size : ℚ)
  if ncd < 0 then 0
  else if ncd > 1 then 1
  else ncd

/-- The spec's formula written with its own words: the quotient
(compressed(a+b) - min(compressed(a), compressed(b))) divided by
max(compressed(a), compressed(b)), clipped to the interval [0, 1]. -/
def specNCD (compress : ByteStr → ByteStr) (readF : String → ByteStr)
    (a b : String) : ℚ :=
  let ca := ((compress (readF a)).length : ℚ)
  let cb := ((compress (readF b)).length : ℚ)
  let cab := ((compress (List.append (readF a) (readF b))).length : ℚ)
  min 1 (max 0 ((cab - min ca cb) / max ca cb))

/-! ## Result records and the result container (result_container.py) -/

/-- The Result dataclass: one immutable record per measured iteration.
Times and float-valued metrics are Rat, counters and line counts Nat.
Field order follows the dataclass declaration order. -/
structure Result where
  name : String
  obfuscation_wall_time : ℚ
  obfuscation_user_time : ℚ
  obfuscation_system_time : ℚ
  obfuscation_memory : ℤ
  compile_wall_time : ℚ
  compile_user_time : ℚ
  compile_system_time : ℚ
  source_code_size : ℚ
  executable_size : ℚ
  lines_of_code : Nat
  norm_compression_distance : ℚ
  halstead_difficulty : ℚ
  execution_wall_time : ℚ
  execution_user_time : ℚ
  execution_system_time : ℚ
  execution_memory : ℤ
  execution_minor_page_faults : Nat
  execution_major_page_faults : Nat
  execution_total_page_faults : Nat
  execution_voluntary_context_switches : Nat
  execution_involuntary_context_switches : Nat
  execution_total_context_switches : Nat
deriving DecidableEq, Repr

/-- Result.fields(): the dataclass field names in declaration order,
"name" included (it is the first dataclass field). -/
def Result.fieldNames : List String :=
  [ "name",
    "obfuscation_wall_time",
    "obfuscation_user_time",
    "obfuscation_system_time",
    "obfuscation_memory",
    "compile_wall_time",
    "compile_user_time",
    "compile_system_time",
    "source_code_size",
    "executable_size",
    "lines_of_code",
    "norm_compression_distance",
    "halstead_difficulty",
    "execution_wall_time",
    "execution_user_time",
    "execution_system_time",
    "execution_memory",
    "execution_minor_page_faults",
    "execution_major_page_faults",
    "execution_total_page_faults",
    "execution_voluntary_context_switches",
    "execution_involuntary_context_switches",
    "execution_total_context_switches" ]

/-- list(asdict(result).items())[1:]: every scalar field of the record
except the leading "name", as (field name, numeric value) pairs in
dataclass order, all numbers injected into Rat. -/
def Result.metricItems (r : Result) : List (String × ℚ) :=
  [ ("obfuscation_wall_time", r.obfuscation_wall_time),
    ("obfuscation_user_time", r.obfuscation_user_time),
    ("obfuscation_system_time", r.obfuscation_system_time),
    ("obfuscation_memory", (r.obfuscation_memory : ℚ)),
    ("compile_wall_time", r.compile_wall_time),
    ("compile_user_time", r.compile_user_time),
    ("compile_system_time", r.compile_system_time),
    ("source_code_size", r.source_code_size),
    ("executable_size", r.executable_size),
    ("lines_of_code", (r.lines_of_code : ℚ)),
    ("norm_compression_distance", r.norm_compression_distance),
    ("halstead_difficulty", r.halstead_difficulty),
    ("execution_wall_time", r.execution_wall_time),
    ("execution_user_time", r.execution_user_time),
    ("execution_system_time", r.execution_system_time),
    ("execution_memory", (r.execution_memory : ℚ)),
    ("execution_minor_page_faults", (r.execution_minor_page_faults : ℚ)),
    ("execution_major_page_faults", (r.execution_major_page_faults : ℚ)),
    ("execution_total_page_faults", (r.execution_total_page_faults : ℚ)),
    ("execution_voluntary_context_switches",
      (r.execution_voluntary_context_switches : ℚ)),
    ("execution_involuntary_context_switches",
      (r.execution_involuntary_context_switches : ℚ)),
    ("execution_total_context_switches",
      (r.execution_total_context_switches : ℚ)) ]

/-- Append v to the list stored under key k, creating the key with an
empty list first when absent (the two-step pattern of add_result). -/
def assocAppend {α : Type} (l : List (String × List α)) (k : String)
    (v : α) : List (String × List α) :=
  match l with
  | [] => [(k, [v])]
  | (k0, vs) :: rest =>
    if k0 = k then (k0, vs ++ [v]) :: rest
    else (k0, vs) :: assocAppend rest k v

/-- Ordered lookup in an association list. -/
def assocFind {α : Type} (l : List (String × α)) (k : String) : Option α :=
  match l with
  | [] => none
  | (k0, v) :: rest => if k0 = k then some v else assocFind rest k

/-- ResultContainer._results: configuration name to (metric name to
ordered sample list); an insertion-ordered association list (Python
dicts preserve insertion order, which the container relies on). -/
abbrev ResultContainer := List (String × List (String × List ℚ))

/-- ResultContainer.__init__. -/
def ResultContainer.empty : ResultContainer := []

/-- Insert the configuration key with an empty inner dict when it is not
yet present (the first step of add_result). -/
def ResultContainer.ensureName (c : ResultContainer) (n : String) :
    ResultContainer :=
  match c with
  | [] => [(n, [])]
  | (k, ms) :: rest =>
    if k = n then (k, ms) :: rest else (k, ms) :: ResultContainer.ensureName rest n

/-- The update add_result performs on the one entry matching the
record's configuration name: append every metric value to the entry's
per-metric sample list, creating missing lists empty. -/
def ResultContainer.addInto (items : List (String × ℚ)) (n : String)
    (p : String × List (String × List ℚ)) :
    String × List (String × List ℚ) :=
  if p.1 = n then
    (p.1, items.foldl (fun ms mv => assocAppend ms mv.1 mv.2) p.2)
  else p

/-- ResultContainer.add_result: ensure the configuration's inner dict
exists, then append every metric value of the Result (all fields except
"name") to the per-metric sample list of that configuration's entry. -/
def ResultContainer.add_result (c : ResultContainer) (r : Result) :
    ResultContainer :=
  (ResultContainer.ensureName c r.name).map
    (ResultContainer.addInto r.metricItems r.name)

/-- Errors raised by ResultContainer.metric_results: the RuntimeError for
a metric name that is not a Result field, and the KeyError a dict lookup
raises when a present configuration has no list under the metric name. -/
inductive ContainerError where
  | unknownMetric (metric : String)
  | keyError (key : String)
deriving DecidableEq, Repr

/-- The dict comprehension of metric_results: walk the configurations in
insertion order, looking the metric up in each; a missing key raises
KeyError at the first offending configuration. -/
def ResultContainer.collectMetric (c : ResultContainer) (metric : String) :
    Except ContainerError (List (String × List ℚ)) :=
  match c with
  | [] => .ok []
  | (n, ms) :: rest =>
    match assocFind ms metric with
    | none => .error (.keyError metric)
    | some l =>
      match ResultContainer.collectMetric rest metric with
      | .error e => .error e
      | .ok tail => .ok ((n, l) :: tail)

/-- ResultContainer.metric_results: RuntimeError when the metric name is
not one of Result.fields(); otherwise build the configuration-to-samples
mapping for that metric. -/
def ResultContainer.metric_results (c : ResultContainer) (metric : String) :
    Except ContainerError (List (String × List ℚ)) :=
  if metric ∈ Result.fieldNames then
    ResultContainer.collectMetric c metric
  else
    .error (.unknownMetric metric)

/-- A value of the average/stdev result dicts: the "name" entry holds the
configuration name string, every metric entry a number. -/
inductive AggValue where
  | str (s : String)
  | num (q : ℚ)
deriving DecidableEq, Repr

/-- statistics.mean: the exact arithmetic mean. -/
def listMean (l : List ℚ) : ℚ := l.sum / (l.length : ℚ)

/-- The sample variance with Bessel's correction, whose square root is
statistics.stdev. -/
def sampleVariance (l : List ℚ) : ℚ :=
  (l.map (fun x => (x - listMean l) ^ 2)).sum / ((l.length : ℚ) - 1)

/-- The per-metric branch of get_average_results: with more than one
sample, (statistics.mean, statistics.stdev); with one sample, the sample
itself and the literal 0.0. sqrtf models the square root the float
statistics.stdev applies to the sample variance. -/
def aggEntry (sqrtf : ℚ → ℚ) (l : List ℚ) : ℚ × ℚ :=
  if 1 < l.length then (listMean l, sqrtf (sampleVariance l))
  else (l.headD 0, 0)

/-- ResultContainer.get_average_results: per configuration, a dict
starting with the name entry followed by one mean (resp. stdev) entry per
metric in insertion order. -/
def ResultContainer.get_average_results (sqrtf : ℚ → ℚ)
    (c : ResultContainer) :
    List (String × List (String × AggValue))
      × List (String × List (String × AggValue)) :=
  (c.map (fun p =>
     (p.1, ("name", AggValue.str p.1)
        :: p.2.map (fun m => (m.1, AggValue.num (aggEntry sqrtf m.2).1)))),
   c.map (fun p =>
     (p.1, ("name", AggValue.str p.1)
        :: p.2.map (fun m => (m.1, AggValue.num (aggEntry sqrtf m.2).2)))))

/-- The spec's uniform arithmetic mean (no single-sample special case). -/
def specMean (l : List ℚ) : ℚ := l.sum / (l.length : ℚ)

/-- The spec's standard deviation: the sample standard deviation when at
least 2 samples exist, else exactly 0. -/
def specStdev (sqrtf : ℚ → ℚ) (l : List ℚ) : ℚ :=
  if 2 ≤ l.length then sqrtf (sampleVariance l) else 0

/-! ## Config loader (obf_perf_core.py, load_obfuscation_configs) -/

/-- Errors raised by the core pipeline: ValueError from the argument
validation, the RuntimeError for a missing TIGRESS_HOME, the
CalledProcessError of a failed external invocation (carrying the wait
status), and OSError from an unreadable file. -/
inductive PipelineError where
  | valueError (msg : String)
  | runtimeError (msg : String)
  | calledProcessError (status : Nat)
  | osError (path : String)
deriving DecidableEq, Repr

/-- The identity tigress configuration constant __NORMAL_CONFIG. -/
def NORMAL_CONFIG : String × List String :=
  ("00-normal",
   [ "tigress", "--Environment=x86_64:Linux:Gcc:4.6", "--Transform=Ident" ])

/-- The loop body of load_obfuscation_configs: read each config file
(OSError when unreadable), tokenize the content with shlex.split, drop
tokens equal to a literal newline, and pair the path with the tokens. -/
def loadConfigsLoop (shlexSplit : String → List String)
    (readF : String → Option String) :
    List String → Except PipelineError (List (String × List String))
  | [] => .ok []
  | p :: rest =>
    match readF p with
    | none => .error (.osError p)
    | some content =>
      match loadConfigsLoop shlexSplit readF rest with
      | .error e => .error e
      | .ok tail =>
        .ok ((p, (shlexSplit content).filter (fun tok => tok ≠ "\n")) :: tail)

/-- load_obfuscation_configs: the identity configuration first, then one
loaded configuration per input path in input order. shlexSplit models the
library tokenizer shlex.split and readF the filesystem. -/
def load_obfuscation_configs (shlexSplit : String → List String)
    (readF : String → Option String) (paths : List String) :
    Except PipelineError (List (String × List String)) :=
  (loadConfigsLoop shlexSplit readF paths).map (fun l => NORMAL_CONFIG :: l)

/-! ## Path helpers used by perform_analysis -/

/-- Split a character list at every occurrence of the separator. -/
def splitOnChar (sep : Char) : List Char → List (List Char)
  | [] => [[]]
  | c :: cs =>
    let r := splitOnChar sep cs
    if c = sep then [] :: r
    else
      match r with
      | [] => [[c]]
      | h :: t => (c :: h) :: t

/-- os.path.basename for POSIX paths: the part after the last slash. -/
def basenameOf (p : String) : String :=
  String.mk ((splitOnChar '/' p.data).getLastD [])

/-- The root part of os.path.splitext: strip the extension that starts at
the last dot, except when every character before that dot is itself a dot
(leading dots do not start an extension). -/
def splitextRoot (s : String) : String :=
  let cs := s.data
  let dotIdxs := (List.range cs.length).filter (fun i => cs.getD i ' ' = '.')
  match dotIdxs.getLast? with
  | none => s
  | some p =>
    if (List.range p).all (fun q => cs.getD q ' ' = '.') then s
    else String.mk (cs.take p)

/-- obf_config_filename_no_ext: basename without extension, the name
under which a configuration's results are recorded. -/
def stemOf (p : String) : String := splitextRoot (basenameOf p)

/-! ## The benchmark pipeline (obf_perf_core.py, perform_analysis)

Every external invocation is wrapped in a ResourceMonitor whose getters
the pipeline reads after a successful run(); a StageReading packages
those getter values, and a failed invocation is the CalledProcessError
(or OSError) the stage raises. The environment oracle gives, per
configuration index, the outcome of the one-off static obfuscation, of
the two static-metric computations, and, per iteration round, of the
obfuscate / compile-O0 / compile-Ok / run invocations together with the
fresh file measurements of that round. -/

/-- The getter values of one successfully monitored invocation. -/
structure StageReading where
  wallTime : ℚ
  userTime : ℚ
  systemTime : ℚ
  maxMemory : ℤ
  minorFaults : Nat
  majorFaults : Nat
  volCtx : Nat
  involCtx : Nat
deriving DecidableEq, Repr

/-- Outcomes of the external work of one iteration round: the four
monitored invocations of __obfuscate_compile_run and the per-round file
measurements (obfuscated source size, a.out size, obfuscated line
count). gcc2 is consulted only when the optimization level is positive;
otherwise the source reuses the gcc1 monitor object. -/
structure IterEnv where
  obf : Except PipelineError StageReading
  gcc1 : Except PipelineError StageReading
  gcc2 : Except PipelineError StageReading
  prog : Except PipelineError StageReading
  obfSize : Nat
  binSize : Nat
  lineCount : Nat

/-- Per-configuration external outcomes: the once-per-configuration
static obfuscation, the normalized compression distance and Halstead
difficulty computations, and the per-round iteration outcomes. -/
structure ConfigEnv where
  staticObf : Except PipelineError StageReading
  ncdVal : Except PipelineError ℚ
  halsteadVal : Except PipelineError ℚ
  iter : Nat → IterEnv

/-- The whole-run environment: the TIGRESS_HOME variable, the working
directory at entry, the scratch directory tempfile creates, and the
per-configuration-index outcomes. -/
structure AnalysisEnv where
  tigressHome : Option String
  initialCwd : String
  tmpDir : String
  cfg : Nat → ConfigEnv

/-- __obfuscate_compile_run: obfuscate, compile without optimizations,
compile with optimizations when the level is positive (otherwise reuse
the unoptimized compile monitor), then run the produced executable; the
first failing stage raises. -/
def runIterStages (ce : ConfigEnv) (lvl t : Nat) :
    Except PipelineError
      (StageReading × StageReading × StageReading × StageReading) :=
  match (ce.iter t).obf with
  | .error e => .error e
  | .ok obfR =>
    match (ce.iter t).gcc1 with
    | .error e => .error e
    | .ok g1 =>
      match (if 0 < lvl then (ce.iter t).gcc2 else .ok g1) with
      | .error e => .error e
      | .ok g2 =>
        match (ce.iter t).prog with
        | .error e => .error e
        | .ok pr => .ok (obfR, g1, g2, pr)

/-- The Result built by a measured iteration (source lines 199-242):
obfuscation times are the monitor differences clamped at zero, sizes are
bytes divided by 1000, and the page-fault/context-switch fields are read
from the execution monitor — with the minor/major page-fault getters
transposed exactly as in the source. -/
def mkResult (stem : String) (ncdq halq : ℚ) (ie : IterEnv)
    (obfR g1 g2 pr : StageReading) : Result :=
  { name := stem
    obfuscation_wall_time := max 0 (obfR.wallTime - g1.wallTime)
    obfuscation_user_time := max 0 (obfR.userTime - g1.userTime)
    obfuscation_system_time := max 0 (obfR.systemTime - g1.systemTime)
    obfuscation_memory := obfR.maxMemory
    compile_wall_time := g2.wallTime
    compile_user_time := g2.userTime
    compile_system_time := g2.systemTime
    source_code_size := (ie.obfSize : ℚ) / 1000
    executable_size := (ie.binSize : ℚ) / 1000
    lines_of_code := ie.lineCount
    norm_compression_distance := ncdq
    halstead_difficulty := halq
    execution_wall_time := pr.wallTime
    execution_user_time := pr.userTime
    execution_system_time := pr.systemTime
    execution_memory := pr.maxMemory
    execution_minor_page_faults := pr.majorFaults
    execution_major_page_faults := pr.minorFaults
    execution_total_page_faults := pr.minorFaults + pr.majorFaults
    execution_voluntary_context_switches := pr.volCtx
    execution_involuntary_context_switches := pr.involCtx
    execution_total_context_switches := pr.volCtx + pr.involCtx }

/-- The warmup loop: run the full stage sequence the given number of
times starting at round t, discarding every reading. -/
def warmupLoop (ce : ConfigEnv) (lvl : Nat) :
    Nat → Nat → Except PipelineError Unit
  | 0, _ => .ok ()
  | k + 1, t =>
    match runIterStages ce lvl t with
    | .error e => .error e
    | .ok _ => warmupLoop ce lvl k (t + 1)

/-- The measured loop: run the stage sequence, build one Result from the
readings of the round, and recurse; the per-configuration static metrics
ncdq and halq are reused in every record. -/
def measuredLoop (ce : ConfigEnv) (stem : String) (ncdq halq : ℚ)
    (lvl : Nat) : Nat → Nat → Except PipelineError (List Result)
  | 0, _ => .ok []
  | k + 1, t =>
    match runIterStages ce lvl t with
    | .error e => .error e
    | .ok (obfR, g1, g2, pr) =>
      match measuredLoop ce stem ncdq halq lvl k (t + 1) with
      | .error e => .error e
      | .ok rest =>
        .ok (mkResult stem ncdq halq (ce.iter t) obfR g1 g2 pr :: rest)

/-- The per-configuration body of perform_analysis: generate the
augmented source (raising RuntimeError when TIGRESS_HOME is unset), run
the one-off static obfuscation, compute the two static metrics, then the
warmup rounds followed by the measured rounds. -/
def processConfig (env : AnalysisEnv) (i : Nat) (cfg : String × List String)
    (runsN warmupN lvl : Nat) : Except PipelineError (List Result) :=
  match env.tigressHome with
  | none => .error (.runtimeError "Error: TIGRESS_HOME not set")
  | some _ =>
    match (env.cfg i).staticObf with
    | .error e => .error e
    | .ok _ =>
      match (env.cfg i).ncdVal with
      | .error e => .error e
      | .ok ncdq =>
        match (env.cfg i).halsteadVal with
        | .error e => .error e
        | .ok halq =>
          match warmupLoop (env.cfg i) lvl warmupN 0 with
          | .error e => .error e
          | .ok _ =>
            measuredLoop (env.cfg i) (stemOf cfg.1) ncdq halq lvl
              runsN warmupN

/-- The configuration loop: process each configuration in order,
concatenating the emitted records; a failure in any configuration
propagates immediately. -/
def configsLoop (env : AnalysisEnv) (runsN warmupN lvl : Nat) :
    List (String × List String) → Nat → Except PipelineError (List Result)
  | [], _ => .ok []
  | c :: rest, i =>
    match processConfig env i c runsN warmupN lvl with
    | .error e => .error e
    | .ok rs =>
      match configsLoop env runsN warmupN lvl rest (i + 1) with
      | .error e => .error e
      | .ok more => .ok (rs ++ more)

/-- The argument validation of perform_analysis. Over Nat the negative
branches of the runs/warmup/optimization-level checks are unreachable;
the reachable checks are runs < 1, optimization_level > 3, and an empty
configuration list. -/
def validationError (obf_configs : List (String × List String))
    (runsN lvl : Nat) : Option PipelineError :=
  if runsN < 1 then some (.valueError "runs must be >= 1")
  else if 3 < lvl then
    some (.valueError "optimization_level must be between 0 and 3")
  else if obf_configs.length < 1 then
    some (.valueError "obf_configs must contain at least one config")
  else none

/-- perform_analysis: validate the arguments, then run the configuration
loop inside the scratch directory; the container's add stream is returned
as the ordered list of emitted Result records. -/
def perform_analysis (env : AnalysisEnv)
    (obf_configs : List (String × List String)) (runsN warmupN lvl : Nat) :
    Except PipelineError (List Result) :=
  match validationError obf_configs runsN lvl with
  | some e => .error e
  | none => configsLoop env runsN warmupN lvl obf_configs 0

/-- The process working directory when perform_analysis hands control
back to its caller. The validation errors are raised before os.chdir
enters the scratch directory; the normal path executes os.chdir(old_cwd)
at the end of the with-block; an error propagating out of the
configuration loop skips that chdir, leaving the process in the (now
removed) scratch directory. -/
def perform_analysis_final_cwd (env : AnalysisEnv)
    (obf_configs : List (String × List String)) (runsN warmupN lvl : Nat) :
    String :=
  match validationError obf_configs runsN lvl with
  | some _ => env.initialCwd
  | none =>
    match configsLoop env runsN warmupN lvl obf_configs 0 with
    | .ok _ => env.initialCwd
    | .error _ => env.tmpDir

/-! ## Success predicates and record counting -/

/-- Whether an Except carries a value. -/
def okB {ε α : Type} : Except ε α → Bool
  | .ok _ => true
  | .error _ => false

/-- All four stage invocations of one iteration round succeed (the
optimized compile only being consulted for a positive level). -/
def iterOk (ce : ConfigEnv) (lvl t : Nat) : Prop :=
  okB (ce.iter t).obf = true ∧ okB (ce.iter t).gcc1 = true ∧
    (0 < lvl → okB (ce.iter t).gcc2 = true) ∧ okB (ce.iter t).prog = true

instance (ce : ConfigEnv) (lvl t : Nat) : Decidable (iterOk ce lvl t) := by
  unfold iterOk; infer_instance

/-- Every external outcome consumed for one configuration succeeds. -/
def configOk (env : AnalysisEnv) (i runsN warmupN lvl : Nat) : Prop :=
  okB (env.cfg i).staticObf = true ∧ okB (env.cfg i).ncdVal = true ∧
    okB (env.cfg i).halsteadVal = true ∧
    ∀ t < warmupN + runsN, iterOk (env.cfg i) lvl t

instance (env : AnalysisEnv) (i runsN warmupN lvl : Nat) :
    Decidable (configOk env i runsN warmupN lvl) := by
  unfold configOk; infer_instance

/-- Every external outcome consumed by a run over n configurations
succeeds, TIGRESS_HOME being set. -/
def allSuccess (env : AnalysisEnv) (n runsN warmupN lvl : Nat) : Prop :=
  env.tigressHome.isSome = true ∧ ∀ i < n, configOk env i runsN warmupN lvl

instance (env : AnalysisEnv) (n runsN warmupN lvl : Nat) :
    Decidable (allSuccess env n runsN warmupN lvl) := by
  unfold allSuccess; infer_instance

/-- The number of records of the given configuration name in an emitted
record stream; a propagated error emits no records at all. -/
def recordCount (out : Except PipelineError (List Result)) (n : String) :
    Nat :=
  match out with
  | .error _ => 0
  | .ok s => (s.filter (fun x => x.name = n)).length

/-- A placeholder stage reading used only to state the value carried by
a successful Except outcome. -/
def defaultReading : StageReading := ⟨0, 0, 0, 0, 0, 0, 0, 0⟩

/-- The value of a successful outcome, with a default for the error case
(only ever applied to outcomes known to be successful). -/
def getRD {α : Type} (d : α) : Except PipelineError α → α
  | .ok a => a
  | .error _ => d

/-- The Result a successful measured round t of a configuration
produces, written directly from the round's environment outcomes. -/
def idealIterAt (ce : ConfigEnv) (stem : String) (ncdq halq : ℚ)
    (lvl t : Nat) : Result :=
  let e := ce.iter t
  let obfR := getRD defaultReading e.obf
  let g1 := getRD defaultReading e.gcc1
  let g2 := if 0 < lvl then getRD defaultReading e.gcc2 else g1
  let pr := getRD defaultReading e.prog
  mkResult stem ncdq halq e obfR g1 g2 pr

/-- The r records a fully successful configuration emits: one per
measured round, at rounds w, w + 1, ..., w + r - 1 (the first w rounds
are the discarded warmup rounds). -/
def idealConfigStream (ce : ConfigEnv) (stem : String) (ncdq halq : ℚ)
    (lvl runsN warmupN : Nat) : List Result :=
  (List.range runsN).map
    (fun j => idealIterAt ce stem ncdq halq lvl (warmupN + j))

/-- The full record stream of a fully successful run, configuration
blocks in order. -/
def idealStream (env : AnalysisEnv) (runsN warmupN lvl : Nat) :
    List (String × List String) → Nat → List Result
  | [], _ => []
  | c :: rest, i =>
    idealConfigStream (env.cfg i) (stemOf c.1)
        (getRD 0 (env.cfg i).ncdVal) (getRD 0 (env.cfg i).halsteadVal)
        lvl runsN warmupN
      ++ idealStream env runsN warmupN lvl rest (i + 1)

/-! ## Concrete environments for witnesses and counterexamples -/

/-- A stage reading of a successful invocation. -/
def okReading : StageReading := ⟨4, 3, 1, 2048, 10, 2, 3, 1⟩

/-- An iteration round in which every invocation succeeds. -/
def okIter : IterEnv :=
  { obf := .ok okReading, gcc1 := .ok okReading, gcc2 := .ok okReading,
    prog := .ok okReading, obfSize := 3000, binSize := 16000,
    lineCount := 7 }

/-- A configuration whose every external outcome succeeds. -/
def okConfigEnv : ConfigEnv :=
  { staticObf := .ok okReading, ncdVal := .ok (1 / 2),
    halsteadVal := .ok 4, iter := fun _ => okIter }

/-- A whole-run environment in which everything succeeds. -/
def okEnv : AnalysisEnv :=
  { tigressHome := some "/opt/tigress", initialCwd := "/home/user",
    tmpDir := "/tmp/scratch", cfg := fun _ => okConfigEnv }

/-- A configuration whose obfuscator invocation always fails (wait
status 256: the obfuscator exited 1). -/
def failConfigEnv : ConfigEnv :=
  { staticObf := .error (.calledProcessError 256), ncdVal := .ok 0,
    halsteadVal := .ok 0,
    iter := fun _ =>
      { obf := .error (.calledProcessError 256), gcc1 := .ok okReading,
        gcc2 := .ok okReading, prog := .ok okReading, obfSize := 0,
        binSize := 0, lineCount := 0 } }

/-- A whole-run environment in which the first configuration's
obfuscator invocation always fails and every other configuration is
well formed. -/
def failFirstEnv : AnalysisEnv :=
  { tigressHome := some "/opt/tigress", initialCwd := "/home/user",
    tmpDir := "/tmp/scratch",
    cfg := fun i => if i = 0 then failConfigEnv else okConfigEnv }

/-- Two configurations: a failing one first, a well-formed sibling
second. -/
def cfgsTwo : List (String × List String) :=
  [("confs/bad.txt", ["tigress", "--Transform=Flatten"]),
   ("confs/good.txt", ["tigress", "--Transform=Ident"])]

/-- Two well-formed configurations with distinct stems. -/
def cfgsOk : List (String × List String) :=
  [("confs/a.txt", ["tigress", "--Transform=Flatten"]),
   ("confs/b.txt", ["tigress", "--Transform=Ident"])]

/-! ## Shared concrete values for witnesses and counterexamples -/

/-- A compressor model for the C3 witness: one header byte followed by
the input, so compressed sizes are always positive. -/
def witCompress (l : ByteStr) : ByteStr := 0 :: l

/-- A filesystem model for the C3 witness: every file is empty. -/
def witRead (_ : String) : ByteStr := []

/-- A concrete accumulated state for the C4 witness: one configuration,
one metric with a single sample and one metric with two samples. -/
def containerW : ResultContainer :=
  [("o1", [("m", [(3 : ℚ)]), ("k", [(1 : ℚ), (3 : ℚ)])])]

/-- A concrete Result record for witnesses and counterexamples. -/
def sampleResult : Result :=
  { name := "o1"
    obfuscation_wall_time := 2
    obfuscation_user_time := 1
    obfuscation_system_time := 0
    obfuscation_memory := 500
    compile_wall_time := 1
    compile_user_time := 1
    compile_system_time := 0
    source_code_size := 3
    executable_size := 16
    lines_of_code := 7
    norm_compression_distance := 1 / 2
    halstead_difficulty := 4
    execution_wall_time := 1
    execution_user_time := 1
    execution_system_time := 0
    execution_memory := 1200
    execution_minor_page_faults := 10
    execution_major_page_faults := 2
    execution_total_page_faults := 12
    execution_voluntary_context_switches := 3
    execution_involuntary_context_switches := 1
    execution_total_context_switches := 4 }

/-- The states add_result produces: every configuration's inner dict has
exactly the non-name Result fields as keys, in dataclass order. -/
def WFContainer (c : ResultContainer) : Prop :=
  ∀ p ∈ c, p.2.map Prod.fst = Result.fieldNames.tail

/-- The single record a one-run, no-warmup analysis of the identity
configuration emits in the all-success environment. -/
def resW : Result :=
  idealIterAt (okEnv.cfg 0) (stemOf NORMAL_CONFIG.1)
    (getRD 0 (okEnv.cfg 0).ncdVal) (getRD 0 (okEnv.cfg 0).halsteadVal) 0 0

/-- An rusage struct with all counters zero. -/
def rusage0 : Rusage := ⟨0, 0, 0, 0, 0, 0, 0⟩

/-- The diagnostic /usr/bin/time writes on its stderr when it cannot
locate the target executable. -/
def timeNotFoundStderr : String :=
  "/usr/bin/time: cannot run ./a.out: No such file or directory\n"

/-! ## C6 -/

/-- C6: for every ResourceMonitor instance, calling any getter
(wall_time, user_time, system_time, max_memory, stdout, stderr, the
page-fault getters, the swap getter, or the context-switch getters)
before run() has completed fails with the NotYetRun error; a freshly
constructed monitor is in that not-yet-run state; and a monitored run of
an empty argument vector fails with the ValueError validation error
whatever the spawn scenario — no process outcome is consulted. -/
theorem C6_getters_before_run_and_empty_command :
    (∀ m : ResourceMonitor, m.completed = none →
      m.stdoutG = .error .notYetRun ∧
      m.stderrG = .error .notYetRun ∧
      m.wall_time = .error .notYetRun ∧
      m.user_time = .error .notYetRun ∧
      m.system_time = .error .notYetRun ∧
      m.max_memory = .error .notYetRun ∧
      m.minor_page_faults = .error .notYetRun ∧
      m.major_page_faults = .error .notYetRun ∧
      m.page_faults = .error .notYetRun ∧
      m.swaps = .error .notYetRun ∧
      m.volountary_context_switches = .error .notYetRun ∧
      m.involountary_context_switches = .error .notYetRun ∧
      m.context_switches = .error .notYetRun) ∧
    (∀ (args : List String) (c : Bool) (m : ResourceMonitor),
      ResourceMonitor.init args c = .ok m → m.completed = none) ∧
    (∀ sc : Spawn, monitoredRun [] sc =
      .error (.valueError "Error: cannot monitor an empty command")) := by
  refine ⟨?_, ?_, ?_⟩
  · intro m h
    simp [ResourceMonitor.stdoutG, ResourceMonitor.stderrG,
      ResourceMonitor.wall_time, ResourceMonitor.user_time,
      ResourceMonitor.system_time, ResourceMonitor.max_memory,
      ResourceMonitor.minor_page_faults, ResourceMonitor.major_page_faults,
      ResourceMonitor.page_faults, ResourceMonitor.swaps,
      ResourceMonitor.volountary_context_switches,
      ResourceMonitor.involountary_context_switches,
      ResourceMonitor.context_switches, ResourceMonitor.getField, h]
  · intro args c m h
    unfold ResourceMonitor.init at h
    split at h
    · exact absurd h (by simp)
    · cases h
      rfl
  · intro sc
    rfl

/-- Witness for C6: a concrete constructed-but-not-run monitor has every
getter failing with NotYetRun, and the empty command is rejected with the
validation error. -/
theorem C6_witness :
    (ResourceMonitor.mk ["ls"] true none).wall_time = .error .notYetRun ∧
    monitoredRun [] (.ranAndExited 0 "" "x\n5\n" 1 rusage0) =
      .error (.valueError "Error: cannot monitor an empty command") :=
  ⟨(C6_getters_before_run_and_empty_command.1
      (ResourceMonitor.mk ["ls"] true none) rfl).2.2.1,
   C6_getters_before_run_and_empty_command.2.2
      (.ranAndExited 0 "" "x\n5\n" 1 rusage0)⟩

/-! ## C5 -/

/-- C5 counterexample: the claim that a wrapper failure to locate the
target executable produces an ExecutableNotFound error distinguishable
from a normal non-zero exit is false. The monitor only observes the raw
wait status and the captured pipes; when the wrapper cannot locate the
target it exits 127 (raw status 32512), and run() raises exactly the same
CalledProcessError it raises for a target that itself exits with status
127 producing the same output — the two distinct scenarios map to equal
error values. -/
theorem C5_counterexample :
    Spawn.execNotFound timeNotFoundStderr 0 rusage0
        ≠ Spawn.ranAndExited 32512 "" timeNotFoundStderr 0 rusage0 ∧
    monitoredRun ["./a.out"]
        (Spawn.execNotFound timeNotFoundStderr 0 rusage0)
      = monitoredRun ["./a.out"]
        (Spawn.ranAndExited 32512 "" timeNotFoundStderr 0 rusage0) ∧
    monitoredRun ["./a.out"]
        (Spawn.execNotFound timeNotFoundStderr 0 rusage0)
      = .error (.calledProcessError 32512 "" timeNotFoundStderr) :=
  ⟨by simp, rfl, rfl⟩

/-- C5 amended: run() raises the single CalledProcessError (carrying the
raw wait status and the captured stdout/stderr) for every non-zero
wrapper exit status; a failure of the wrapper to locate the target
executable surfaces only as the wrapper's exit status 127 inside that
same error, so it is not distinguishable by the caller from a target
program exiting with status 127. -/
theorem C5_amended_nonzero_status_raises_called_process_error
    (m : ResourceMonitor) (obs : RawObs)
    (hc : m.check = true) (hs : obs.status ≠ 0) :
    m.runModel obs =
      .error (.calledProcessError obs.status obs.stdoutData obs.stderrData) := by
  unfold ResourceMonitor.runModel
  rw [if_pos]
  exact ⟨by simp [hc], hs⟩

/-- Witness for the amended C5 theorem at a concrete monitor and
observation. -/
theorem C5_amended_witness :
    ResourceMonitor.runModel (ResourceMonitor.mk ["./a.out"] true none)
        (RawObs.mk 256 "" "err\n100\n" 1 rusage0)
      = .error (.calledProcessError 256 "" "err\n100\n") :=
  C5_amended_nonzero_status_raises_called_process_error _ _ rfl (by decide)

/-! ## C9 -/

/-- The loop of load_obfuscation_configs succeeds on readable paths and
yields one configuration per path, named by the path, in input order. -/
theorem loadConfigsLoop_ok (shlexSplit : String → List String)
    (readF : String → Option String) :
    ∀ paths : List String, (∀ p ∈ paths, (readF p).isSome = true) →
      ∃ l, loadConfigsLoop shlexSplit readF paths = .ok l ∧
        l.map Prod.fst = paths := by
  intro paths
  induction paths with
  | nil => intro _; exact ⟨[], rfl, rfl⟩
  | cons p rest ih =>
    intro h
    obtain ⟨tail, htail, hmap⟩ := ih (fun q hq => h q (List.mem_cons_of_mem _ hq))
    have hp : (readF p).isSome = true := h p (List.mem_cons_self _ _)
    obtain ⟨content, hcontent⟩ := Option.isSome_iff_exists.mp hp
    refine ⟨(p, (shlexSplit content).filter (fun tok => tok ≠ "\n")) :: tail, ?_, ?_⟩
    · unfold loadConfigsLoop
      rw [hcontent, htail]
    · simpa using hmap

/-- C9: for every list of readable input configuration paths,
load_obfuscation_configs returns the well-known identity configuration
constant first, followed by exactly one configuration per input path in
input order, each named by its path. -/
theorem C9_identity_config_first (shlexSplit : String → List String)
    (readF : String → Option String) (paths : List String)
    (h : ∀ p ∈ paths, (readF p).isSome = true) :
    ∃ rest, load_obfuscation_configs shlexSplit readF paths =
        .ok (NORMAL_CONFIG :: rest) ∧
      rest.map Prod.fst = paths ∧ rest.length = paths.length := by
  obtain ⟨l, hl, hmap⟩ := loadConfigsLoop_ok shlexSplit readF paths h
  refine ⟨l, ?_, hmap, ?_⟩
  · unfold load_obfuscation_configs
    rw [hl]
    rfl
  · calc l.length = (l.map Prod.fst).length := (List.length_map _ _).symm
      _ = paths.length := by rw [hmap]

/-- Witness for C9 at a concrete tokenizer, filesystem and path list. -/
theorem C9_witness :
    ∃ rest, load_obfuscation_configs (fun s => [s])
        (fun _ => some "--Transform=Flatten") ["confs/flatten.txt"] =
        .ok (NORMAL_CONFIG :: rest) ∧
      rest.map Prod.fst = ["confs/flatten.txt"] ∧
      rest.length = ["confs/flatten.txt"].length :=
  C9_identity_config_first (fun s => [s]) (fun _ => some "--Transform=Flatten")
    ["confs/flatten.txt"] (by intro p _; rfl)

/-! ## C3 -/

/-- The two-sided clip of the source equals the min/max clip of the
spec. -/
theorem clip_eq_min_max (q : ℚ) :
    (if q < 0 then (0 : ℚ) else if q > 1 then 1 else q) = min 1 (max 0 q) := by
  rcases lt_or_le q 0 with h | h
  · rw [if_pos h, max_eq_left h.le, min_eq_right]
    norm_num
  · rw [if_neg (not_lt.mpr h)]
    rcases lt_or_le 1 q with h1 | h1
    · rw [if_pos h1, max_eq_right h, min_eq_left h1.le]
    · rw [if_neg (not_lt.mpr h1), max_eq_right h, min_eq_right h1]

/-- The source's normalized_compression_distance written as the clipped
quotient. -/
theorem normalized_compression_distance_eq (compress : ByteStr → ByteStr)
    (readF : String → ByteStr) (a b : String) :
    normalized_compression_distance compress readF a b =
      min 1 (max 0
        ((((compress (List.append (readF a) (readF b))).length : ℚ)
            - min ((compress (readF a)).length : ℚ)
                  ((compress (readF b)).length : ℚ))
          / max ((compress (readF a)).length : ℚ)
                ((compress (readF b)).length : ℚ))) := by
  unfold normalized_compression_distance
  exact clip_eq_min_max _

/-- C3: for every compressor and every pair of readable files with
positive compressed sizes (bz2 output is never empty), the function
returns exactly the spec formula (C(a+b) - min(C(a), C(b))) divided by
max(C(a), C(b)), clipped to [0, 1]; the returned value always lies in
[0, 1]; and for a file compared with itself the result is at most any ε
bounding the compressor's duplication overhead — the formal content of
"approximately 0". -/
theorem C3_normalized_compression_distance (compress : ByteStr → ByteStr)
    (readF : String → ByteStr) (a b : String)
    (ha : 0 < (compress (readF a)).length)
    (_hb : 0 < (compress (readF b)).length) :
    normalized_compression_distance compress readF a b
        = specNCD compress readF a b ∧
    0 ≤ normalized_compression_distance compress readF a b ∧
    normalized_compression_distance compress readF a b ≤ 1 ∧
    (∀ ε : ℚ, 0 ≤ ε →
      ((compress (List.append (readF a) (readF a))).length : ℚ)
          ≤ (1 + ε) * ((compress (readF a)).length : ℚ) →
      normalized_compression_distance compress readF a a ≤ ε) := by
  refine ⟨?_, ?_, ?_, ?_⟩
  · rw [normalized_compression_distance_eq]
    rfl
  · rw [normalized_compression_distance_eq]
    exact le_min (by norm_num) (le_max_left 0 _)
  · rw [normalized_compression_distance_eq]
    exact min_le_left 1 _
  · intro ε hε hdup
    rw [normalized_compression_distance_eq]
    have hca : (0 : ℚ) < ((compress (readF a)).length : ℚ) := by
      exact_mod_cast ha
    have hq : (((compress (List.append (readF a) (readF a))).length : ℚ)
        - min ((compress (readF a)).length : ℚ)
              ((compress (readF a)).length : ℚ))
        / max ((compress (readF a)).length : ℚ)
              ((compress (readF a)).length : ℚ) ≤ ε := by
      rw [min_self, max_self, div_le_iff₀ hca]
      nlinarith [hdup]
    exact le_trans (min_le_right 1 _) (max_le hε hq)

/-- Witness for C3 at a concrete compressor, filesystem and file pair,
with the self-distance bound instantiated at ε = 0. -/
theorem C3_witness :
    normalized_compression_distance witCompress witRead "f" "g"
        = specNCD witCompress witRead "f" "g" ∧
    0 ≤ normalized_compression_distance witCompress witRead "f" "g" ∧
    normalized_compression_distance witCompress witRead "f" "g" ≤ 1 ∧
    normalized_compression_distance witCompress witRead "f" "f" ≤ 0 :=
  ⟨(C3_normalized_compression_distance witCompress witRead "f" "g"
      (by decide) (by decide)).1,
   (C3_normalized_compression_distance witCompress witRead "f" "g"
      (by decide) (by decide)).2.1,
   (C3_normalized_compression_distance witCompress witRead "f" "g"
      (by decide) (by decide)).2.2.1,
   (C3_normalized_compression_distance witCompress witRead "f" "f"
      (by decide) (by decide)).2.2.2 0 le_rfl
      (by norm_num [witCompress, witRead])⟩

/-! ## C4 -/

/-- The per-metric aggregation branch of the source coincides with the
spec's uniform arithmetic mean and its two-branch standard deviation on
every nonempty sample list: in particular with exactly one sample the
source's direct sample value equals the arithmetic mean and its literal
0.0 equals the spec's single-sample standard deviation. -/
theorem aggEntry_spec (sqrtf : ℚ → ℚ) (l : List ℚ) (h : l ≠ []) :
    aggEntry sqrtf l = (specMean l, specStdev sqrtf l) := by
  rcases l with _ | ⟨x, xs⟩
  · exact absurd rfl h
  rcases xs with _ | ⟨y, ys⟩
  · unfold aggEntry specMean specStdev
    norm_num [listMean]
  · unfold aggEntry specMean specStdev listMean
    rw [if_pos (by simp only [List.length_cons]; omega),
        if_pos (by simp only [List.length_cons]; omega)]

/-- C4: on every accumulated state whose sample lists are nonempty (the
only states add_result produces), get_average_results returns, for every
configuration and metric, exactly the arithmetic mean of the samples,
paired with the sample standard deviation for at least two samples and
with exactly 0 for a single sample (whose mean is the sample itself). -/
theorem C4_get_average_results (sqrtf : ℚ → ℚ) (c : ResultContainer)
    (h : ∀ p ∈ c, ∀ m ∈ p.2, m.2 ≠ ([] : List ℚ)) :
    ResultContainer.get_average_results sqrtf c =
      (c.map (fun p => (p.1, ("name", AggValue.str p.1) ::
          p.2.map (fun m => (m.1, AggValue.num (specMean m.2))))),
       c.map (fun p => (p.1, ("name", AggValue.str p.1) ::
          p.2.map (fun m => (m.1, AggValue.num (specStdev sqrtf m.2)))))) := by
  unfold ResultContainer.get_average_results
  have hmean : ∀ p ∈ c, ∀ m ∈ p.2,
      (aggEntry sqrtf m.2).1 = specMean m.2 := by
    intro p hp m hm
    rw [aggEntry_spec sqrtf m.2 (h p hp m hm)]
  have hstd : ∀ p ∈ c, ∀ m ∈ p.2,
      (aggEntry sqrtf m.2).2 = specStdev sqrtf m.2 := by
    intro p hp m hm
    rw [aggEntry_spec sqrtf m.2 (h p hp m hm)]
  congr 1
  · apply List.map_congr_left
    intro p hp
    refine congrArg _ (congrArg _ ?_)
    apply List.map_congr_left
    intro m hm
    rw [hmean p hp m hm]
  · apply List.map_congr_left
    intro p hp
    refine congrArg _ (congrArg _ ?_)
    apply List.map_congr_left
    intro m hm
    rw [hstd p hp m hm]

/-- Witness for C4: on the concrete state, the single-sample metric gets
mean 3 and stdev 0, and the two-sample metric the mean 2 and the square
root (here modelled by the identity on the variance) of the sample
variance 2. -/
theorem C4_witness :
    ResultContainer.get_average_results (fun q => q) containerW =
      ([("o1", [("name", AggValue.str "o1"),
                ("m", AggValue.num 3), ("k", AggValue.num 2)])],
       [("o1", [("name", AggValue.str "o1"),
                ("m", AggValue.num 0), ("k", AggValue.num 2)])]) := by
  rw [C4_get_average_results (fun q => q) containerW (by decide)]
  norm_num [containerW, specMean, specStdev, sampleVariance, listMean]

/-! ## C8 -/

/-- The keys of a Result's metric items are the Result field names with
the leading "name" dropped. -/
theorem metricItems_keys (r : Result) :
    r.metricItems.map Prod.fst = Result.fieldNames.tail := rfl

/-- The non-name Result field names are pairwise distinct. -/
theorem metricKeys_nodup : (Result.fieldNames.tail).Nodup := by decide

/-- Appending under an absent key adds the key at the end with a
singleton list. -/
theorem assocAppend_of_not_mem {α : Type} (l : List (String × List α))
    (k : String) (v : α) (h : k ∉ l.map Prod.fst) :
    assocAppend l k v = l ++ [(k, [v])] := by
  induction l with
  | nil => rfl
  | cons p rest ih =>
    obtain ⟨k0, vs⟩ := p
    simp only [List.map_cons, List.mem_cons] at h
    push_neg at h
    unfold assocAppend
    rw [if_neg (fun hk => h.1 hk.symm), ih h.2]
    rfl

/-- Appending under a present key leaves the key sequence unchanged. -/
theorem assocAppend_keys_of_mem {α : Type} (l : List (String × List α))
    (k : String) (v : α) (h : k ∈ l.map Prod.fst) :
    (assocAppend l k v).map Prod.fst = l.map Prod.fst := by
  induction l with
  | nil => simp at h
  | cons p rest ih =>
    obtain ⟨k0, vs⟩ := p
    unfold assocAppend
    by_cases hk : k0 = k
    · rw [if_pos hk]
      simp
    · rw [if_neg hk]
      simp only [List.map_cons, List.mem_cons] at h ⊢
      rcases h with h | h
      · exact absurd h.symm hk
      · rw [ih h]

/-- Folding assocAppend over items with fresh, pairwise-distinct keys
appends one singleton-valued entry per item. -/
theorem foldl_assocAppend_fresh {α : Type} :
    ∀ (items : List (String × α)) (acc : List (String × List α)),
      (∀ k ∈ items.map Prod.fst, k ∉ acc.map Prod.fst) →
      (items.map Prod.fst).Nodup →
      items.foldl (fun ms mv => assocAppend ms mv.1 mv.2) acc
        = acc ++ items.map (fun mv => (mv.1, [mv.2])) := by
  intro items
  induction items with
  | nil => intro acc _ _; simp
  | cons x xs ih =>
    intro acc hdisj hnd
    simp only [List.map_cons, List.nodup_cons] at hnd
    have hx : x.1 ∉ acc.map Prod.fst := hdisj x.1 (by simp)
    have hstep : assocAppend acc x.1 x.2 = acc ++ [(x.1, [x.2])] :=
      assocAppend_of_not_mem acc x.1 x.2 hx
    have hcond : ∀ k ∈ xs.map Prod.fst,
        k ∉ (assocAppend acc x.1 x.2).map Prod.fst := by
      intro k hk
      rw [hstep]
      simp only [List.map_append, List.mem_append]
      push_neg
      refine ⟨hdisj k (by simp [hk]), ?_⟩
      simp only [List.map_cons, List.map_nil, List.mem_cons]
      push_neg
      exact ⟨fun he => hnd.1 (he ▸ hk), by simp⟩
    rw [List.foldl_cons, ih (assocAppend acc x.1 x.2) hcond hnd.2, hstep]
    simp

/-- Folding assocAppend over items whose keys are all already present
leaves the key sequence unchanged. -/
theorem foldl_assocAppend_keys {α : Type} :
    ∀ (items : List (String × α)) (acc : List (String × List α)),
      (∀ k ∈ items.map Prod.fst, k ∈ acc.map Prod.fst) →
      (items.foldl (fun ms mv => assocAppend ms mv.1 mv.2) acc).map Prod.fst
        = acc.map Prod.fst := by
  intro items
  induction items with
  | nil => intro acc _; rfl
  | cons x xs ih =>
    intro acc hmem
    have hk : (assocAppend acc x.1 x.2).map Prod.fst = acc.map Prod.fst :=
      assocAppend_keys_of_mem acc x.1 x.2 (hmem x.1 (by simp))
    rw [List.foldl_cons, ih (assocAppend acc x.1 x.2)
      (fun k hkk => hk ▸ hmem k (by simp [hkk])), hk]

/-- Ordered lookup in a map of singleton lists. -/
theorem assocFind_map_single {α : Type} (items : List (String × α))
    (k : String) :
    assocFind (items.map (fun mv => (mv.1, [mv.2]))) k
      = (assocFind items k).map (fun v => [v]) := by
  induction items with
  | nil => rfl
  | cons x xs ih =>
    simp only [List.map_cons]
    unfold assocFind
    by_cases hk : x.1 = k
    · rw [if_pos hk, if_pos hk]
      rfl
    · rw [if_neg hk, if_neg hk, ih]

/-- A key present in the key sequence is found. -/
theorem assocFind_some_of_mem {α : Type} (l : List (String × α))
    (k : String) (h : k ∈ l.map Prod.fst) : ∃ v, assocFind l k = some v := by
  induction l with
  | nil => simp at h
  | cons p rest ih =>
    unfold assocFind
    by_cases hk : p.1 = k
    · exact ⟨p.2, by rw [if_pos hk]⟩
    · simp only [List.map_cons, List.mem_cons] at h
      rcases h with h | h
      · exact absurd h.symm hk
      · obtain ⟨v, hv⟩ := ih h
        exact ⟨v, by rw [if_neg hk, hv]⟩

/-- A found key is in the key sequence. -/
theorem assocFind_mem_keys {α : Type} (l : List (String × α)) (k : String)
    (v : α) (h : assocFind l k = some v) : k ∈ l.map Prod.fst := by
  induction l with
  | nil => simp [assocFind] at h
  | cons p rest ih =>
    unfold assocFind at h
    by_cases hk : p.1 = k
    · simp [hk]
    · rw [if_neg hk] at h
      simp [ih h]

/-- Membership in the container after ensureName: either an old entry or
the fresh empty entry for the new name. -/
theorem ensureName_mem (c : ResultContainer) (n : String)
    (p : String × List (String × List ℚ))
    (h : p ∈ ResultContainer.ensureName c n) : p ∈ c ∨ p = (n, []) := by
  induction c with
  | nil =>
    unfold ResultContainer.ensureName at h
    simp at h
    exact Or.inr h
  | cons q rest ih =>
    unfold ResultContainer.ensureName at h
    by_cases hq : q.1 = n
    · rw [if_pos hq] at h
      exact Or.inl h
    · rw [if_neg hq] at h
      rcases List.mem_cons.mp h with h1 | h1
      · exact Or.inl (List.mem_cons.mpr (Or.inl h1))
      · rcases ih h1 with h2 | h2
        · exact Or.inl (List.mem_cons.mpr (Or.inr h2))
        · exact Or.inr h2

/-- add_result on the empty container produces one configuration entry
whose inner dict maps each metric field to the singleton list of the
just-appended value. -/
theorem add_result_empty (r : Result) :
    ResultContainer.add_result ResultContainer.empty r
      = [(r.name, r.metricItems.map (fun mv => (mv.1, [mv.2])))] := by
  unfold ResultContainer.add_result ResultContainer.empty
    ResultContainer.ensureName ResultContainer.addInto
  simp only [List.map_cons, List.map_nil, if_pos rfl]
  rw [foldl_assocAppend_fresh r.metricItems [] (by simp)
    (metricItems_keys r ▸ metricKeys_nodup)]
  simp

/-- The empty container is well formed. -/
theorem wf_empty : WFContainer ResultContainer.empty := by
  intro p hp
  simp [ResultContainer.empty] at hp

/-- add_result preserves well-formedness: every configuration keeps
exactly the metric field names as inner keys. -/
theorem wf_add_result (c : ResultContainer) (r : Result)
    (h : WFContainer c) : WFContainer (c.add_result r) := by
  intro p hp
  unfold ResultContainer.add_result at hp
  obtain ⟨q, hq, hfq⟩ := List.mem_map.mp hp
  unfold ResultContainer.addInto at hfq
  rcases ensureName_mem c r.name q hq with hold | hnew
  · by_cases hqn : q.1 = r.name
    · rw [if_pos hqn] at hfq
      subst hfq
      simp only []
      rw [foldl_assocAppend_keys r.metricItems q.2
        (fun k hk => by rw [h q hold]; exact metricItems_keys r ▸ hk)]
      exact h q hold
    · rw [if_neg hqn] at hfq
      subst hfq
      exact h q hold
  · subst hnew
    rw [if_pos rfl] at hfq
    subst hfq
    simp only []
    rw [foldl_assocAppend_fresh r.metricItems [] (by simp)
      (metricItems_keys r ▸ metricKeys_nodup)]
    simp only [List.nil_append, List.map_map]
    exact metricItems_keys r

/-- collectMetric never produces the UnknownMetric error: its only error
is the KeyError of a missing inner key. -/
theorem collectMetric_ne_unknown (c : ResultContainer) (m e : String) :
    ResultContainer.collectMetric c m ≠ .error (.unknownMetric e) := by
  induction c with
  | nil => simp [ResultContainer.collectMetric]
  | cons p rest ih =>
    unfold ResultContainer.collectMetric
    cases assocFind p.2 m with
    | none => simp
    | some l =>
      cases hrest : ResultContainer.collectMetric rest m with
      | error e2 =>
        simp only []
        intro hcontra
        rw [hrest] at ih
        exact ih (by injection hcontra with h2; rw [h2])
      | ok tail => simp

/-- On a well-formed container, collectMetric succeeds for every metric
field name and returns each configuration's stored sample list. -/
theorem collectMetric_wf (c : ResultContainer) (m : String)
    (hwf : WFContainer c) (hm : m ∈ Result.fieldNames.tail) :
    ResultContainer.collectMetric c m
      = .ok (c.map (fun p => (p.1, (assocFind p.2 m).getD []))) := by
  induction c with
  | nil => rfl
  | cons p rest ih =>
    have hp : p.2.map Prod.fst = Result.fieldNames.tail :=
      hwf p (List.mem_cons_self _ _)
    obtain ⟨v, hv⟩ := assocFind_some_of_mem p.2 m (hp ▸ hm)
    unfold ResultContainer.collectMetric
    rw [hv, ih (fun q hq => hwf q (List.mem_cons_of_mem _ hq))]
    simp [hv]

/-- C8 counterexample: "name" is one of the fixed Result field names,
yet metric_results("name") on a store holding one added record does not
return a mapping — the inner dict never receives a "name" key, so the
lookup raises KeyError. This falsifies the claim that every Result field
name yields the per-configuration sample mapping. -/
theorem C8_counterexample :
    ("name" ∈ Result.fieldNames) ∧
    ResultContainer.metric_results
        (ResultContainer.add_result ResultContainer.empty sampleResult) "name"
      = .error (.keyError "name") := by
  refine ⟨by decide, ?_⟩
  rw [add_result_empty]
  unfold ResultContainer.metric_results
  rw [if_pos (show "name" ∈ Result.fieldNames by decide)]
  unfold ResultContainer.collectMetric
  rw [assocFind_map_single]
  have hnone : assocFind sampleResult.metricItems "name" = none := by decide
  rw [hnone]
  rfl

/-- C8 amended: metric_results fails with UnknownMetric exactly when the
metric is not a Result field name; for every metric among the non-name
field names it returns, on the states add_result builds, the mapping
from each stored configuration to that configuration's sample list — in
particular a single add followed by the query returns the just-appended
value as the sole element; but for the field name "name" on a nonempty
store the inner lookup raises KeyError instead of returning a mapping. -/
theorem C8_amended_metric_results (metric : String) (r : Result)
    (c : ResultContainer) :
    (metric ∉ Result.fieldNames →
      ResultContainer.metric_results c metric
        = .error (.unknownMetric metric)) ∧
    (metric ∈ Result.fieldNames →
      ∀ e, ResultContainer.metric_results c metric
        ≠ .error (.unknownMetric e)) ∧
    (WFContainer c → metric ∈ Result.fieldNames.tail →
      ResultContainer.metric_results c metric
        = .ok (c.map (fun p => (p.1, (assocFind p.2 metric).getD [])))) ∧
    (∀ v, assocFind r.metricItems metric = some v →
      ResultContainer.metric_results
          (ResultContainer.add_result ResultContainer.empty r) metric
        = .ok [(r.name, [v])]) := by
  refine ⟨?_, ?_, ?_, ?_⟩
  · intro hnot
    unfold ResultContainer.metric_results
    rw [if_neg hnot]
  · intro hmem e
    unfold ResultContainer.metric_results
    rw [if_pos hmem]
    exact collectMetric_ne_unknown c metric e
  · intro hwf hm
    unfold ResultContainer.metric_results
    have hmem : metric ∈ Result.fieldNames := by
      have hsplit : Result.fieldNames = "name" :: Result.fieldNames.tail := rfl
      rw [hsplit]
      exact List.mem_cons_of_mem _ hm
    rw [if_pos hmem]
    exact collectMetric_wf c metric hwf hm
  · intro v hv
    have hm : metric ∈ r.metricItems.map Prod.fst :=
      assocFind_mem_keys _ _ _ hv
    rw [add_result_empty]
    unfold ResultContainer.metric_results
    have hmem : metric ∈ Result.fieldNames := by
      have hsplit : Result.fieldNames = "name" :: Result.fieldNames.tail := rfl
      rw [hsplit]
      exact List.mem_cons_of_mem _ (metricItems_keys r ▸ hm)
    rw [if_pos hmem]
    unfold ResultContainer.collectMetric
    rw [assocFind_map_single, hv]
    rfl

/-- Witness for the amended C8 theorem: after a single add, querying the
lines_of_code metric returns the just-appended value as the sole element
of the configuration's sample list. -/
theorem C8_amended_witness :
    ResultContainer.metric_results
        (ResultContainer.add_result ResultContainer.empty sampleResult)
        "lines_of_code"
      = .ok [("o1", [((7 : Nat) : ℚ)])] :=
  (C8_amended_metric_results "lines_of_code" sampleResult
      ResultContainer.empty).2.2.2 ((7 : Nat) : ℚ) (by decide)

/-! ## Pipeline lemmas (shared by C1, C2, C7, C10) -/

/-- okB is true exactly on successful outcomes. -/
theorem okB_true_iff {ε α : Type} (x : Except ε α) :
    okB x = true ↔ ∃ a, x = .ok a := by
  cases x with
  | error e => simp [okB]
  | ok a => simp [okB]

/-- A round whose stages all succeed yields exactly the tuple of the
environment's stage readings. -/
theorem runIterStages_ok_of (ce : ConfigEnv) (lvl t : Nat)
    (h : iterOk ce lvl t) :
    runIterStages ce lvl t = .ok
      (getRD defaultReading (ce.iter t).obf,
       getRD defaultReading (ce.iter t).gcc1,
       (if 0 < lvl then getRD defaultReading (ce.iter t).gcc2
        else getRD defaultReading (ce.iter t).gcc1),
       getRD defaultReading (ce.iter t).prog) := by
  obtain ⟨h1, h2, h3, h4⟩ := h
  obtain ⟨a, ha⟩ := (okB_true_iff _).mp h1
  obtain ⟨b, hb⟩ := (okB_true_iff _).mp h2
  obtain ⟨d, hd⟩ := (okB_true_iff _).mp h4
  by_cases hl : 0 < lvl
  · obtain ⟨g, hg⟩ := (okB_true_iff _).mp (h3 hl)
    simp [runIterStages, ha, hb, hg, hd, hl, getRD]
  · simp [runIterStages, ha, hb, hd, hl, getRD]

/-- A round that returned stage readings had all its stages succeed. -/
theorem runIterStages_ok_inv (ce : ConfigEnv) (lvl t : Nat)
    (x : StageReading × StageReading × StageReading × StageReading)
    (h : runIterStages ce lvl t = .ok x) : iterOk ce lvl t := by
  unfold runIterStages at h
  unfold iterOk
  cases ho : (ce.iter t).obf with
  | error e => rw [ho] at h; exact absurd h (by simp)
  | ok a =>
    rw [ho] at h
    cases hg1 : (ce.iter t).gcc1 with
    | error e => rw [hg1] at h; exact absurd h (by simp)
    | ok b =>
      rw [hg1] at h
      by_cases hl : 0 < lvl
      · simp only [if_pos hl] at h
        cases hg2 : (ce.iter t).gcc2 with
        | error e => rw [hg2] at h; exact absurd h (by simp)
        | ok g =>
          rw [hg2] at h
          cases hp : (ce.iter t).prog with
          | error e => rw [hp] at h; exact absurd h (by simp)
          | ok d => simp [okB, ho, hg1, hg2, hp]
      · simp only [if_neg hl] at h
        cases hp : (ce.iter t).prog with
        | error e => rw [hp] at h; exact absurd h (by simp)
        | ok d => simp [okB, ho, hg1, hp, hl]

/-- The warmup loop succeeds when all its rounds do. -/
theorem warmupLoop_ok_of (ce : ConfigEnv) (lvl : Nat) :
    ∀ k t : Nat, (∀ j < k, iterOk ce lvl (t + j)) →
      warmupLoop ce lvl k t = .ok () := by
  intro k
  induction k with
  | zero => intro t _; rfl
  | succ k ih =>
    intro t h
    have h0 : iterOk ce lvl t := by simpa using h 0 (Nat.succ_pos k)
    unfold warmupLoop
    rw [runIterStages_ok_of ce lvl t h0]
    exact ih (t + 1) (fun j hj => by
      have hs := h (j + 1) (by omega)
      rwa [show t + (j + 1) = t + 1 + j by omega] at hs)

/-- A successful warmup loop had every round succeed. -/
theorem warmupLoop_ok_inv (ce : ConfigEnv) (lvl : Nat) :
    ∀ k t : Nat, warmupLoop ce lvl k t = .ok () →
      ∀ j < k, iterOk ce lvl (t + j) := by
  intro k
  induction k with
  | zero => intro t _ j hj; exact absurd hj (by omega)
  | succ k ih =>
    intro t h j hj
    unfold warmupLoop at h
    cases hr : runIterStages ce lvl t with
    | error e => rw [hr] at h; exact absurd h (by simp)
    | ok x =>
      rw [hr] at h
      cases j with
      | zero => simpa using runIterStages_ok_inv ce lvl t x hr
      | succ j2 =>
        have hs := ih (t + 1) h j2 (by omega)
        rwa [show t + 1 + j2 = t + (j2 + 1) by omega] at hs

/-- The measured loop of a configuration whose rounds all succeed emits
exactly one record per round, built from that round's readings. -/
theorem measuredLoop_ok_of (ce : ConfigEnv) (stem : String)
    (ncdq halq : ℚ) (lvl : Nat) :
    ∀ k t : Nat, (∀ j < k, iterOk ce lvl (t + j)) →
      measuredLoop ce stem ncdq halq lvl k t =
        .ok ((List.range k).map
          (fun j => idealIterAt ce stem ncdq halq lvl (t + j))) := by
  intro k
  induction k with
  | zero => intro t _; rfl
  | succ k ih =>
    intro t h
    have h0 : iterOk ce lvl t := by simpa using h 0 (Nat.succ_pos k)
    have hrec := ih (t + 1) (fun j hj => by
      have hs := h (j + 1) (by omega)
      rwa [show t + (j + 1) = t + 1 + j by omega] at hs)
    unfold measuredLoop
    simp only [runIterStages_ok_of ce lvl t h0, hrec]
    rw [List.range_succ_eq_map, List.map_cons, List.map_map]
    exact congrArg Except.ok (congrArg₂ List.cons rfl
      (List.map_congr_left (fun j _ => by
        simp only [Function.comp]
        rw [show t + 1 + j = t + Nat.succ j by omega])))

/-- A successful measured loop had every round succeed. -/
theorem measuredLoop_ok_inv (ce : ConfigEnv) (stem : String)
    (ncdq halq : ℚ) (lvl : Nat) :
    ∀ (k t : Nat) (l : List Result),
      measuredLoop ce stem ncdq halq lvl k t = .ok l →
      ∀ j < k, iterOk ce lvl (t + j) := by
  intro k
  induction k with
  | zero => intro t l _ j hj; exact absurd hj (by omega)
  | succ k ih =>
    intro t l h j hj
    unfold measuredLoop at h
    cases hr : runIterStages ce lvl t with
    | error e => rw [hr] at h; exact absurd h (by simp)
    | ok x =>
      obtain ⟨obfR, g1, g2, pr⟩ := x
      rw [hr] at h
      cases hm : measuredLoop ce stem ncdq halq lvl k (t + 1) with
      | error e => rw [hm] at h; exact absurd h (by simp)
      | ok rest =>
        cases j with
        | zero => simpa using runIterStages_ok_inv ce lvl t _ hr
        | succ j2 =>
          have hs := ih (t + 1) rest hm j2 (by omega)
          rwa [show t + 1 + j2 = t + (j2 + 1) by omega] at hs

/-- Every record a successful measured loop emits is a mkResult built
from one round's readings. -/
theorem measuredLoop_mem (ce : ConfigEnv) (stem : String)
    (ncdq halq : ℚ) (lvl : Nat) :
    ∀ (k t : Nat) (l : List Result),
      measuredLoop ce stem ncdq halq lvl k t = .ok l →
      ∀ x ∈ l, ∃ t2 obfR g1 g2 pr,
        x = mkResult stem ncdq halq (ce.iter t2) obfR g1 g2 pr := by
  intro k
  induction k with
  | zero =>
    intro t l h x hx
    cases h
    simp at hx
  | succ k ih =>
    intro t l h x hx
    unfold measuredLoop at h
    cases hr : runIterStages ce lvl t with
    | error e => rw [hr] at h; exact absurd h (by simp)
    | ok y =>
      obtain ⟨obfR, g1, g2, pr⟩ := y
      rw [hr] at h
      cases hm : measuredLoop ce stem ncdq halq lvl k (t + 1) with
      | error e => rw [hm] at h; exact absurd h (by simp)
      | ok rest =>
        rw [hm] at h
        cases h
        rcases List.mem_cons.mp hx with hx | hx
        · exact ⟨t, obfR, g1, g2, pr, hx⟩
        · exact ih (t + 1) rest hm x hx

/-- A configuration whose external outcomes all succeed emits exactly
its ideal block of records. -/
theorem processConfig_ok_of (env : AnalysisEnv) (i : Nat)
    (cfg : String × List String) (runsN warmupN lvl : Nat)
    (hT : env.tigressHome.isSome = true)
    (hC : configOk env i runsN warmupN lvl) :
    processConfig env i cfg runsN warmupN lvl =
      .ok (idealConfigStream (env.cfg i) (stemOf cfg.1)
        (getRD 0 (env.cfg i).ncdVal) (getRD 0 (env.cfg i).halsteadVal)
        lvl runsN warmupN) := by
  obtain ⟨h1, h2, h3, h4⟩ := hC
  obtain ⟨th, hth⟩ := Option.isSome_iff_exists.mp hT
  obtain ⟨a, ha⟩ := (okB_true_iff _).mp h1
  obtain ⟨n, hn⟩ := (okB_true_iff _).mp h2
  obtain ⟨q, hq⟩ := (okB_true_iff _).mp h3
  unfold processConfig
  simp only [hth, ha, hn, hq]
  simp only [warmupLoop_ok_of (env.cfg i) lvl warmupN 0
    (fun j hj => by simpa using h4 j (by omega))]
  simp only [measuredLoop_ok_of (env.cfg i) (stemOf cfg.1) n q lvl runsN
    warmupN (fun j hj => h4 (warmupN + j) (by omega))]
  simp only [idealConfigStream, hn, hq, getRD]

/-- A configuration that emitted records had every consumed external
outcome succeed, TIGRESS_HOME being set. -/
theorem processConfig_ok_inv (env : AnalysisEnv) (i : Nat)
    (cfg : String × List String) (runsN warmupN lvl : Nat)
    (l : List Result)
    (h : processConfig env i cfg runsN warmupN lvl = .ok l) :
    env.tigressHome.isSome = true ∧ configOk env i runsN warmupN lvl := by
  unfold processConfig at h
  cases hth : env.tigressHome with
  | none => rw [hth] at h; exact absurd h (by simp)
  | some th =>
    rw [hth] at h
    cases hs : (env.cfg i).staticObf with
    | error e => rw [hs] at h; exact absurd h (by simp)
    | ok a =>
      rw [hs] at h
      cases hn : (env.cfg i).ncdVal with
      | error e => rw [hn] at h; exact absurd h (by simp)
      | ok n =>
        rw [hn] at h
        cases hq : (env.cfg i).halsteadVal with
        | error e => rw [hq] at h; exact absurd h (by simp)
        | ok q =>
          rw [hq] at h
          cases hw : warmupLoop (env.cfg i) lvl warmupN 0 with
          | error e => rw [hw] at h; exact absurd h (by simp)
          | ok u =>
            rw [hw] at h
            refine ⟨by simp [hth], by simp [okB, hs], by simp [okB, hn],
              by simp [okB, hq], ?_⟩
            intro t ht
            by_cases htw : t < warmupN
            · have hiter := warmupLoop_ok_inv (env.cfg i) lvl warmupN 0
                (by cases u; exact hw) t htw
              simpa using hiter
            · have hiter := measuredLoop_ok_inv (env.cfg i) (stemOf cfg.1)
                n q lvl runsN warmupN l h (t - warmupN) (by omega)
              rwa [show warmupN + (t - warmupN) = t by omega] at hiter

/-- The configuration loop over fully successful configurations returns
the concatenation of their ideal blocks. -/
theorem configsLoop_ok_of (env : AnalysisEnv) (runsN warmupN lvl : Nat) :
    ∀ (cfgs : List (String × List String)) (i : Nat),
      env.tigressHome.isSome = true →
      (∀ k < cfgs.length, configOk env (i + k) runsN warmupN lvl) →
      configsLoop env runsN warmupN lvl cfgs i =
        .ok (idealStream env runsN warmupN lvl cfgs i) := by
  intro cfgs
  induction cfgs with
  | nil => intro i _ _; rfl
  | cons c rest ih =>
    intro i hT h
    unfold configsLoop
    rw [processConfig_ok_of env i c runsN warmupN lvl hT
      (by simpa using h 0 (by simp))]
    rw [ih (i + 1) hT (fun k hk => by
      have hs := h (k + 1) (by simpa using Nat.succ_lt_succ hk)
      rwa [show i + (k + 1) = i + 1 + k by omega] at hs)]
    rfl

/-- A configuration loop that returned records had every configuration
fully succeed. -/
theorem configsLoop_ok_inv (env : AnalysisEnv) (runsN warmupN lvl : Nat) :
    ∀ (cfgs : List (String × List String)) (i : Nat) (s : List Result),
      configsLoop env runsN warmupN lvl cfgs i = .ok s →
      (∀ k < cfgs.length, configOk env (i + k) runsN warmupN lvl) ∧
      (cfgs ≠ [] → env.tigressHome.isSome = true) := by
  intro cfgs
  induction cfgs with
  | nil =>
    intro i s _
    exact ⟨fun k hk => absurd hk (by simp), fun h => absurd rfl h⟩
  | cons c rest ih =>
    intro i s h
    unfold configsLoop at h
    cases hp : processConfig env i c runsN warmupN lvl with
    | error e => rw [hp] at h; exact absurd h (by simp)
    | ok rs =>
      rw [hp] at h
      cases hrest : configsLoop env runsN warmupN lvl rest (i + 1) with
      | error e => rw [hrest] at h; exact absurd h (by simp)
      | ok more =>
        have hpc := processConfig_ok_inv env i c runsN warmupN lvl rs hp
        have hrec := ih (i + 1) more hrest
        refine ⟨?_, fun _ => hpc.1⟩
        intro k hk
        cases k with
        | zero => simpa using hpc.2
        | succ k2 =>
          have hs := hrec.1 k2 (by simpa using Nat.succ_lt_succ_iff.mp hk)
          rwa [show i + 1 + k2 = i + (k2 + 1) by omega] at hs

/-- The reachable validation outcomes: no error exactly when runs ≥ 1,
the optimization level is at most 3, and at least one configuration is
given. -/
theorem validationError_none_iff (cfgs : List (String × List String))
    (runsN lvl : Nat) :
    validationError cfgs runsN lvl = none ↔
      1 ≤ runsN ∧ lvl ≤ 3 ∧ 1 ≤ cfgs.length := by
  unfold validationError
  by_cases h1 : runsN < 1
  · rw [if_pos h1]
    exact ⟨fun hc => Option.noConfusion hc,
      fun hrhs => absurd hrhs.1 (by omega)⟩
  · rw [if_neg h1]
    by_cases h2 : 3 < lvl
    · rw [if_pos h2]
      exact ⟨fun hc => Option.noConfusion hc,
        fun hrhs => absurd hrhs.2.1 (by omega)⟩
    · rw [if_neg h2]
      by_cases h3 : cfgs.length < 1
      · rw [if_pos h3]
        exact ⟨fun hc => Option.noConfusion hc,
          fun hrhs => absurd hrhs.2.2 (by omega)⟩
      · rw [if_neg h3]
        exact ⟨fun _ => ⟨by omega, by omega, by omega⟩, fun _ => rfl⟩

/-! ## C1 -/

/-- C1 counterexample: with two configurations — the first one's
obfuscator invocation failing, the second well formed — runs=1 and
warmup=0, perform_analysis does not isolate the failure: the
CalledProcessError propagates out of the whole analysis, and the
well-formed sibling configuration contributes zero Result records
instead of its full count of 1. -/
theorem C1_counterexample :
    perform_analysis failFirstEnv cfgsTwo 1 0 0
        = .error (.calledProcessError 256) ∧
    recordCount (perform_analysis failFirstEnv cfgsTwo 1 0 0)
        (stemOf "confs/good.txt") = 0 :=
  ⟨rfl, rfl⟩

/-- C1 amended: there is no partial-failure isolation. perform_analysis
returns a record stream exactly when the arguments validate and every
external outcome of every configuration succeeds; any stage failure
(obfuscate, compile, run, or metric computation) propagates out of
perform_analysis, aborting the remaining iterations and configurations
and discarding every accumulated record. -/
theorem C1_amended_no_partial_failure_isolation (env : AnalysisEnv)
    (cfgs : List (String × List String)) (runsN warmupN lvl : Nat) :
    (∃ s, perform_analysis env cfgs runsN warmupN lvl = .ok s) ↔
      (validationError cfgs runsN lvl = none ∧
        allSuccess env cfgs.length runsN warmupN lvl) := by
  constructor
  · rintro ⟨s, hs⟩
    unfold perform_analysis at hs
    cases hv : validationError cfgs runsN lvl with
    | some e => rw [hv] at hs; exact absurd hs (by simp)
    | none =>
      rw [hv] at hs
      have hinv := configsLoop_ok_inv env runsN warmupN lvl cfgs 0 s hs
      have hne : cfgs ≠ [] := by
        have hlen := ((validationError_none_iff cfgs runsN lvl).mp hv).2.2
        intro hnil
        rw [hnil] at hlen
        simp at hlen
      exact ⟨rfl, hinv.2 hne, fun i hi => by simpa using hinv.1 i hi⟩
  · rintro ⟨hv, hT, hC⟩
    refine ⟨idealStream env runsN warmupN lvl cfgs 0, ?_⟩
    unfold perform_analysis
    rw [hv]
    exact configsLoop_ok_of env runsN warmupN lvl cfgs 0 hT
      (fun k hk => by simpa using hC k hk)

/-! ## C2 -/

/-- C2 counterexample: when a stage failure propagates out of
perform_analysis, the working directory afterwards is the scratch
directory, not the directory that was current before the call — the
os.chdir back to the saved directory is only on the normal path. -/
theorem C2_counterexample :
    perform_analysis_final_cwd failFirstEnv cfgsTwo 1 0 0
        = failFirstEnv.tmpDir ∧
    failFirstEnv.tmpDir ≠ failFirstEnv.initialCwd ∧
    perform_analysis failFirstEnv cfgsTwo 1 0 0
        = .error (.calledProcessError 256) :=
  ⟨rfl, by decide, rfl⟩

/-- C2 amended: the working directory is restored exactly on the normal
return path and on the validation errors raised before the directory
change; when an error propagates from inside the pipeline, the process
is left in the scratch directory. -/
theorem C2_amended_cwd_restored_only_on_normal_return (env : AnalysisEnv)
    (cfgs : List (String × List String)) (runsN warmupN lvl : Nat) :
    ((∃ s, perform_analysis env cfgs runsN warmupN lvl = .ok s) →
      perform_analysis_final_cwd env cfgs runsN warmupN lvl
        = env.initialCwd) ∧
    ((validationError cfgs runsN lvl).isSome = true →
      perform_analysis_final_cwd env cfgs runsN warmupN lvl
        = env.initialCwd) ∧
    (validationError cfgs runsN lvl = none →
      (∃ e, perform_analysis env cfgs runsN warmupN lvl = .error e) →
      perform_analysis_final_cwd env cfgs runsN warmupN lvl
        = env.tmpDir) := by
  refine ⟨?_, ?_, ?_⟩
  · rintro ⟨s, hs⟩
    unfold perform_analysis at hs
    unfold perform_analysis_final_cwd
    cases hv : validationError cfgs runsN lvl with
    | some e => rfl
    | none =>
      simp only [hv] at hs
      simp only [hs]
  · intro hv
    obtain ⟨e, he⟩ := Option.isSome_iff_exists.mp hv
    unfold perform_analysis_final_cwd
    simp only [he]
  · rintro hv ⟨e, he⟩
    unfold perform_analysis at he
    unfold perform_analysis_final_cwd
    simp only [hv] at he ⊢
    simp only [he]

/-- Witness for the amended C2 theorem: the all-success run hands back
the original directory; the failing run hands back the scratch
directory. -/
theorem C2_amended_witness :
    perform_analysis_final_cwd okEnv cfgsOk 1 0 0 = okEnv.initialCwd ∧
    perform_analysis_final_cwd failFirstEnv cfgsTwo 1 0 0
      = failFirstEnv.tmpDir :=
  ⟨(C2_amended_cwd_restored_only_on_normal_return okEnv cfgsOk 1 0 0).1
      ⟨idealStream okEnv 1 0 0 cfgsOk 0, rfl⟩,
   (C2_amended_cwd_restored_only_on_normal_return failFirstEnv cfgsTwo
      1 0 0).2.2 rfl ⟨.calledProcessError 256, rfl⟩⟩

/-! ## C7 -/

/-- Every record of an ideal configuration block carries the
configuration's stem as its name. -/
theorem idealConfigStream_names (ce : ConfigEnv) (stem : String)
    (ncdq halq : ℚ) (lvl runsN warmupN : Nat) :
    ∀ x ∈ idealConfigStream ce stem ncdq halq lvl runsN warmupN,
      x.name = stem := by
  intro x hx
  unfold idealConfigStream at hx
  obtain ⟨j, _, hj⟩ := List.mem_map.mp hx
  rw [← hj]
  rfl

/-- An ideal configuration block has exactly runs records. -/
theorem idealConfigStream_length (ce : ConfigEnv) (stem : String)
    (ncdq halq : ℚ) (lvl runsN warmupN : Nat) :
    (idealConfigStream ce stem ncdq halq lvl runsN warmupN).length
      = runsN := by
  unfold idealConfigStream
  rw [List.length_map, List.length_range]

/-- Counting records by name in a list whose records all carry one
name. -/
theorem count_const_name (l : List Result) (stem s : String)
    (h : ∀ x ∈ l, x.name = stem) :
    (l.filter (fun x => x.name = s)).length
      = if stem = s then l.length else 0 := by
  by_cases hs : stem = s
  · rw [if_pos hs, List.filter_eq_self.mpr (by
      intro a ha
      simp [h a ha, hs])]
  · rw [if_neg hs, List.filter_eq_nil_iff.mpr (by
      intro a ha
      simp [h a ha, hs])]
    rfl

/-- The ideal stream has runs records per configuration. -/
theorem idealStream_length (env : AnalysisEnv) (runsN warmupN lvl : Nat) :
    ∀ (cfgs : List (String × List String)) (i : Nat),
      (idealStream env runsN warmupN lvl cfgs i).length
        = cfgs.length * runsN := by
  intro cfgs
  induction cfgs with
  | nil => intro i; simp [idealStream]
  | cons c rest ih =>
    intro i
    unfold idealStream
    rw [List.length_append, idealConfigStream_length, ih (i + 1)]
    simp only [List.length_cons]
    rw [Nat.succ_mul]
    omega

/-- A name carried by no configuration stem matches no record of the
ideal stream. -/
theorem idealStream_count_zero (env : AnalysisEnv)
    (runsN warmupN lvl : Nat) (s : String) :
    ∀ (cfgs : List (String × List String)) (i : Nat),
      s ∉ cfgs.map (fun c => stemOf c.1) →
      ((idealStream env runsN warmupN lvl cfgs i).filter
        (fun x => x.name = s)).length = 0 := by
  intro cfgs
  induction cfgs with
  | nil => intro i _; rfl
  | cons c rest ih =>
    intro i h
    simp only [List.map_cons, List.mem_cons] at h
    push_neg at h
    unfold idealStream
    rw [List.filter_append, List.length_append]
    rw [count_const_name _ (stemOf c.1) s
      (idealConfigStream_names _ _ _ _ _ _ _), if_neg (fun he => h.1 he.symm)]
    rw [ih (i + 1) h.2]

/-- With pairwise-distinct stems, each configuration's stem matches
exactly its own block of runs records in the ideal stream. -/
theorem idealStream_count_mem (env : AnalysisEnv)
    (runsN warmupN lvl : Nat) :
    ∀ (cfgs : List (String × List String)) (i : Nat)
      (c : String × List String), c ∈ cfgs →
      (cfgs.map (fun x => stemOf x.1)).Nodup →
      ((idealStream env runsN warmupN lvl cfgs i).filter
        (fun x => x.name = stemOf c.1)).length = runsN := by
  intro cfgs
  induction cfgs with
  | nil => intro i c hc; simp at hc
  | cons c0 rest ih =>
    intro i c hc hnd
    simp only [List.map_cons, List.nodup_cons] at hnd
    unfold idealStream
    rw [List.filter_append, List.length_append]
    rcases List.mem_cons.mp hc with hceq | hcr
    · subst hceq
      rw [count_const_name _ (stemOf c.1) _
        (idealConfigStream_names _ _ _ _ _ _ _), if_pos rfl,
        idealConfigStream_length,
        idealStream_count_zero env runsN warmupN lvl _ rest (i + 1) hnd.1]
      omega
    · have hne : stemOf c0.1 ≠ stemOf c.1 := by
        intro he
        exact hnd.1 (he ▸ List.mem_map_of_mem (fun x => stemOf x.1) hcr)
      rw [count_const_name _ (stemOf c0.1) _
        (idealConfigStream_names _ _ _ _ _ _ _), if_neg hne,
        ih (i + 1) c hcr hnd.2]
      omega

/-- C7: when the arguments validate and a run's external invocations all
succeed, perform_analysis emits exactly the ideal stream: the measured
records are built from rounds warmup, warmup+1, ..., warmup+runs-1 (the
first warmup rounds are executed but discarded), the stream holds
runs records per configuration (runs * number of configurations in
total, not (warmup+runs) per configuration), and, with pairwise-distinct
stems, each configuration's name carries exactly runs records. -/
theorem C7_exact_run_counts (env : AnalysisEnv)
    (cfgs : List (String × List String)) (runsN warmupN lvl : Nat)
    (hr : 1 ≤ runsN) (hlvl : lvl ≤ 3) (hne : cfgs ≠ [])
    (hall : allSuccess env cfgs.length runsN warmupN lvl) :
    perform_analysis env cfgs runsN warmupN lvl
        = .ok (idealStream env runsN warmupN lvl cfgs 0) ∧
    (idealStream env runsN warmupN lvl cfgs 0).length
        = cfgs.length * runsN ∧
    ((cfgs.map (fun c => stemOf c.1)).Nodup →
      ∀ c ∈ cfgs, recordCount (perform_analysis env cfgs runsN warmupN lvl)
        (stemOf c.1) = runsN) := by
  have hv : validationError cfgs runsN lvl = none :=
    (validationError_none_iff cfgs runsN lvl).mpr
      ⟨hr, hlvl, List.length_pos.mpr hne⟩
  have hok : perform_analysis env cfgs runsN warmupN lvl
      = .ok (idealStream env runsN warmupN lvl cfgs 0) := by
    unfold perform_analysis
    rw [hv]
    exact configsLoop_ok_of env runsN warmupN lvl cfgs 0 hall.1
      (fun k hk => by simpa using hall.2 k hk)
  refine ⟨hok, idealStream_length env runsN warmupN lvl cfgs 0, ?_⟩
  intro hnd c hc
  rw [show recordCount (perform_analysis env cfgs runsN warmupN lvl)
      (stemOf c.1)
      = ((idealStream env runsN warmupN lvl cfgs 0).filter
          (fun x => x.name = stemOf c.1)).length by rw [hok]; rfl]
  exact idealStream_count_mem env runsN warmupN lvl cfgs 0 c hc hnd

/-- Witness for C7: a concrete all-success run with two configurations,
runs=2 and warmup=1 emits the ideal stream, and the first configuration
contributes exactly 2 records (not 3). -/
theorem C7_witness :
    perform_analysis okEnv cfgsOk 2 1 0
        = .ok (idealStream okEnv 2 1 0 cfgsOk 0) ∧
    recordCount (perform_analysis okEnv cfgsOk 2 1 0)
        (stemOf "confs/a.txt") = 2 :=
  ⟨(C7_exact_run_counts okEnv cfgsOk 2 1 0 (by omega) (by omega)
      (by simp [cfgsOk]) (by decide)).1,
   (C7_exact_run_counts okEnv cfgsOk 2 1 0 (by omega) (by omega)
      (by simp [cfgsOk]) (by decide)).2.2 (by decide)
      ("confs/a.txt", ["tigress", "--Transform=Flatten"]) (by decide)⟩

/-! ## C10 -/

/-- Every record mkResult builds has its page-fault total equal to the
sum of its recorded minor and major page-fault fields, and its
context-switch total equal to the sum of its voluntary and involuntary
fields. -/
theorem mkResult_totals (stem : String) (ncdq halq : ℚ) (ie : IterEnv)
    (obfR g1 g2 pr : StageReading) :
    (mkResult stem ncdq halq ie obfR g1 g2 pr).execution_total_page_faults
      = (mkResult stem ncdq halq ie obfR g1 g2 pr).execution_minor_page_faults
        + (mkResult stem ncdq halq ie obfR g1 g2 pr).execution_major_page_faults
    ∧ (mkResult stem ncdq halq ie obfR g1 g2 pr).execution_total_context_switches
      = (mkResult stem ncdq halq ie obfR g1 g2 pr).execution_voluntary_context_switches
        + (mkResult stem ncdq halq ie obfR g1 g2 pr).execution_involuntary_context_switches := by
  unfold mkResult
  exact ⟨Nat.add_comm _ _, rfl⟩

/-- The totals invariant holds on every record a successful
configuration emits. -/
theorem processConfig_totals (env : AnalysisEnv) (i : Nat)
    (cfg : String × List String) (runsN warmupN lvl : Nat)
    (l : List Result)
    (h : processConfig env i cfg runsN warmupN lvl = .ok l) :
    ∀ x ∈ l, x.execution_total_page_faults
        = x.execution_minor_page_faults + x.execution_major_page_faults
      ∧ x.execution_total_context_switches
        = x.execution_voluntary_context_switches
          + x.execution_involuntary_context_switches := by
  intro x hx
  unfold processConfig at h
  cases hth : env.tigressHome with
  | none => rw [hth] at h; exact absurd h (by simp)
  | some th =>
    rw [hth] at h
    cases hs : (env.cfg i).staticObf with
    | error e => rw [hs] at h; exact absurd h (by simp)
    | ok a =>
      rw [hs] at h
      cases hn : (env.cfg i).ncdVal with
      | error e => rw [hn] at h; exact absurd h (by simp)
      | ok n =>
        rw [hn] at h
        cases hq : (env.cfg i).halsteadVal with
        | error e => rw [hq] at h; exact absurd h (by simp)
        | ok q =>
          rw [hq] at h
          cases hw : warmupLoop (env.cfg i) lvl warmupN 0 with
          | error e => rw [hw] at h; exact absurd h (by simp)
          | ok u =>
            rw [hw] at h
            obtain ⟨t2, obfR, g1, g2, pr, hmk⟩ :=
              measuredLoop_mem (env.cfg i) (stemOf cfg.1) n q lvl
                runsN warmupN l h x hx
            rw [hmk]
            exact mkResult_totals _ _ _ _ _ _ _ _

/-- The totals invariant holds on every record the configuration loop
emits. -/
theorem configsLoop_totals (env : AnalysisEnv) (runsN warmupN lvl : Nat) :
    ∀ (cfgs : List (String × List String)) (i : Nat) (s : List Result),
      configsLoop env runsN warmupN lvl cfgs i = .ok s →
      ∀ x ∈ s, x.execution_total_page_faults
          = x.execution_minor_page_faults + x.execution_major_page_faults
        ∧ x.execution_total_context_switches
          = x.execution_voluntary_context_switches
            + x.execution_involuntary_context_switches := by
  intro cfgs
  induction cfgs with
  | nil =>
    intro i s h x hx
    cases h
    simp at hx
  | cons c rest ih =>
    intro i s h x hx
    unfold configsLoop at h
    cases hp : processConfig env i c runsN warmupN lvl with
    | error e => rw [hp] at h; exact absurd h (by simp)
    | ok rs =>
      rw [hp] at h
      cases hrest : configsLoop env runsN warmupN lvl rest (i + 1) with
      | error e => rw [hrest] at h; exact absurd h (by simp)
      | ok more =>
        rw [hrest] at h
        cases h
        rcases List.mem_append.mp hx with hx | hx
        · exact processConfig_totals env i c runsN warmupN lvl rs hp x hx
        · exact ih (i + 1) more hrest x hx

/-- C10: in every Result record the pipeline emits, the total page-fault
field equals the sum of the recorded minor and major page-fault fields,
and the total context-switch field equals the sum of the voluntary and
involuntary fields. -/
theorem C10_totals_are_sums (env : AnalysisEnv)
    (cfgs : List (String × List String)) (runsN warmupN lvl : Nat)
    (s : List Result)
    (h : perform_analysis env cfgs runsN warmupN lvl = .ok s) :
    ∀ res ∈ s, res.execution_total_page_faults
        = res.execution_minor_page_faults + res.execution_major_page_faults
      ∧ res.execution_total_context_switches
        = res.execution_voluntary_context_switches
          + res.execution_involuntary_context_switches := by
  unfold perform_analysis at h
  cases hv : validationError cfgs runsN lvl with
  | some e => rw [hv] at h; exact absurd h (by simp)
  | none =>
    rw [hv] at h
    exact configsLoop_totals env runsN warmupN lvl cfgs 0 s h

/-- Witness for C10: the totals invariant on the concrete record of a
one-run identity-configuration analysis in the all-success
environment. -/
theorem C10_witness :
    resW.execution_total_page_faults
        = resW.execution_minor_page_faults
          + resW.execution_major_page_faults
      ∧ resW.execution_total_context_switches
        = resW.execution_voluntary_context_switches
          + resW.execution_involuntary_context_switches :=
  C10_totals_are_sums okEnv [NORMAL_CONFIG] 1 0 0
    (idealStream okEnv 1 0 0 [NORMAL_CONFIG] 0) rfl resW
    (List.mem_singleton.mpr rfl)

end ObfPerf
